import Mathlib

/-!
# STWBC86 firmware-update example: platform adaptation layer

A shallow embedding of `Core/Src/stwbc86_fw_update_example.c`:

* the two completion flags and the interrupt callbacks that set them,
* `platform_write` and `platform_write_read` with their busy-wait loops,
* the I2C NACK workaround of `platform_write`,
* the static pool allocator (`USE_STATIC_ALLOC_RW` build).

The vendor HAL (tick counter, sequential transfer primitives, interrupt
dispatch) is the environment: it is a parameter `Env` of every function.
The adapter runs as a sequence of steps; step `k` is the `k`-th access of the
adapter to a flag, to the tick counter or to the HAL.  Interrupts are serviced
between steps.  Busy-wait loops take a fuel argument bounding the number of
loop iterations; a run that exhausts it has not returned (`none`).

The handle argument `phandle` of the adapter functions is the field `hi2c` of
the program state: the controller state behind `platform->hi2c`.  The console
handle `huart` is used by `platform_log` only and is not modelled.  Every
action of the adapter on the outside world is also recorded, in program order,
in the field `trace`.
-/

namespace STWBC86

/-! ## HAL types -/

/-- Modelled from the spec: the HAL status enumeration is declared in the
vendor HAL headers, which are not part of the sources.  Status 0 is success
and every other status is a nonzero failure code (spec section 6); the three
failure codes carry the values of the vendor header. -/
inductive HAL_StatusTypeDef
  | HAL_OK
  | HAL_ERROR
  | HAL_BUSY
  | HAL_TIMEOUT
  deriving DecidableEq

/-- Conversion of the status enumeration to the `int32_t` the adapter returns. -/
def HAL_StatusTypeDef.toInt : HAL_StatusTypeDef → Int
  | .HAL_OK => 0
  | .HAL_ERROR => 1
  | .HAL_BUSY => 2
  | .HAL_TIMEOUT => 3

/-- Modelled from the spec: the lock word of a HAL handle (vendor header). -/
inductive HAL_LockTypeDef
  | HAL_UNLOCKED
  | HAL_LOCKED
  deriving DecidableEq

/-- Modelled from the spec: states of the bus controller driver (vendor
header); the adapter itself only ever writes `HAL_I2C_STATE_READY`. -/
inductive HAL_I2C_StateTypeDef
  | HAL_I2C_STATE_RESET
  | HAL_I2C_STATE_READY
  | HAL_I2C_STATE_BUSY
  | HAL_I2C_STATE_BUSY_TX
  | HAL_I2C_STATE_BUSY_RX
  | HAL_I2C_STATE_LISTEN
  | HAL_I2C_STATE_ABORT
  deriving DecidableEq

/-- Modelled from the spec: modes of the bus controller driver (vendor
header); the adapter itself only ever writes `HAL_I2C_MODE_NONE`. -/
inductive HAL_I2C_ModeTypeDef
  | HAL_I2C_MODE_NONE
  | HAL_I2C_MODE_MASTER
  | HAL_I2C_MODE_SLAVE
  | HAL_I2C_MODE_MEM
  deriving DecidableEq

/-- The frame options the adapter passes to the sequential transfer calls. -/
inductive XferOptions
  | I2C_FIRST_FRAME
  | I2C_FIRST_AND_LAST_FRAME
  | I2C_LAST_FRAME
  deriving DecidableEq

/-- Controller state reached through `platform->hi2c`: the lock word, the stop
flag of the status register, the transfer configuration register CR2, and the
driver State and Mode. -/
structure I2C_HandleTypeDef where
  Lock : HAL_LockTypeDef
  STOPF : Bool
  CR2 : Nat
  State : HAL_I2C_StateTypeDef
  Mode : HAL_I2C_ModeTypeDef
  deriving DecidableEq

/-- Modelled from the spec: the macro `__HAL_LOCK` is defined in the vendor
headers; section 4.3 step 1 describes it as acquiring the exclusive lock on
the controller state. -/
def HAL_LOCK (h : I2C_HandleTypeDef) : I2C_HandleTypeDef :=
  { h with Lock := HAL_LockTypeDef.HAL_LOCKED }

/-- Modelled from the spec: the macro `__HAL_I2C_CLEAR_FLAG` with
`I2C_FLAG_STOPF` is defined in the vendor headers; section 4.3 step 2: clear
the stop-condition flag. -/
def HAL_I2C_CLEAR_FLAG_STOPF (h : I2C_HandleTypeDef) : I2C_HandleTypeDef :=
  { h with STOPF := false }

/-- Modelled from the spec: the macro `I2C_RESET_CR2` is defined in the vendor
headers; section 4.3 step 3: reset the transfer-configuration register to its
power-on value, which is zero. -/
def I2C_RESET_CR2 (h : I2C_HandleTypeDef) : I2C_HandleTypeDef :=
  { h with CR2 := 0 }

/-- Modelled from the spec: the macro `__HAL_UNLOCK` is defined in the vendor
headers; section 4.3 step 5: release the lock. -/
def HAL_UNLOCK (h : I2C_HandleTypeDef) : I2C_HandleTypeDef :=
  { h with Lock := HAL_LockTypeDef.HAL_UNLOCKED }

/-! ## Environment, events and program state -/

/-- The two completion interrupts the HAL can deliver. -/
inductive Irq
  | MasterTxCplt
  | MasterRxCplt
  deriving DecidableEq

/-- What the adapter does to the outside world, in program order. -/
inductive Event
  | clearTxDone
  | clearRxDone
  | getTick (value : Nat)
  | seqTransmitIT (opt : XferOptions) (status : HAL_StatusTypeDef)
  | seqReceiveIT (opt : XferOptions) (status : HAL_StatusTypeDef)
  | pollTxDone (value : Nat)
  | pollRxDone (value : Nat)
  | lock
  | clearStopFlag
  | resetCR2
  | setState (s : HAL_I2C_StateTypeDef)
  | setMode (m : HAL_I2C_ModeTypeDef)
  | unlock
  deriving DecidableEq

/-- The environment the adapter runs in.

* `uwTick k` is the free-running count of ticks at step `k`; `HAL_GetTick`
  returns it as an unsigned 32-bit value.
* `irq k` lists the completion interrupts serviced just before step `k`.
* `Seq_Transmit_IT k wbuf wlen opt h` and `Seq_Receive_IT k rlen opt h` are the
  outcome of initiating a sequential transfer at step `k` on controller state
  `h`: the returned status and the controller state the HAL leaves behind. -/
structure Env where
  uwTick : Nat → Nat
  irq : Nat → List Irq
  Seq_Transmit_IT : Nat → List Nat → Int → XferOptions → I2C_HandleTypeDef →
    HAL_StatusTypeDef × I2C_HandleTypeDef
  Seq_Receive_IT : Nat → Int → XferOptions → I2C_HandleTypeDef →
    HAL_StatusTypeDef × I2C_HandleTypeDef

/-- Program state: the two file-scope flags, the controller state behind
`platform->hi2c`, the index of the next step and the events so far. -/
structure World where
  i2cSequentialRxDone : Nat
  i2cSequentialTxDone : Nat
  hi2c : I2C_HandleTypeDef
  clock : Nat
  trace : List Event

/-! ## Interrupt callbacks -/

/-- Source: `HAL_I2C_MasterTxCpltCallback`. -/
def HAL_I2C_MasterTxCpltCallback (w : World) : World :=
  { w with i2cSequentialTxDone := 1 }

/-- Source: `HAL_I2C_MasterRxCpltCallback`. -/
def HAL_I2C_MasterRxCpltCallback (w : World) : World :=
  { w with i2cSequentialRxDone := 1 }

/-- Servicing one completion interrupt runs the matching callback. -/
def service (w : World) : Irq → World
  | .MasterTxCplt => HAL_I2C_MasterTxCpltCallback w
  | .MasterRxCplt => HAL_I2C_MasterRxCpltCallback w

/-- The interrupts pending before the next step are serviced, then the step
begins. -/
def interrupts (env : Env) (w : World) : World :=
  { (env.irq w.clock).foldl service w with clock := w.clock + 1 }

/-- Append an event to the trace. -/
def World.emit (w : World) (e : Event) : World :=
  { w with trace := w.trace ++ [e] }

/-! ## Steps of the adapter -/

/-- The statement `i2cSequentialTxDone = 0;`. -/
def clear_i2cSequentialTxDone (env : Env) (w : World) : World :=
  ({ interrupts env w with i2cSequentialTxDone := 0 }).emit Event.clearTxDone

/-- The statement `i2cSequentialRxDone = 0;`. -/
def clear_i2cSequentialRxDone (env : Env) (w : World) : World :=
  ({ interrupts env w with i2cSequentialRxDone := 0 }).emit Event.clearRxDone

/-- A read of `i2cSequentialTxDone` in a loop condition. -/
def read_i2cSequentialTxDone (env : Env) (w : World) : Nat × World :=
  let w1 := interrupts env w
  (w1.i2cSequentialTxDone, w1.emit (Event.pollTxDone w1.i2cSequentialTxDone))

/-- A read of `i2cSequentialRxDone` in a loop condition. -/
def read_i2cSequentialRxDone (env : Env) (w : World) : Nat × World :=
  let w1 := interrupts env w
  (w1.i2cSequentialRxDone, w1.emit (Event.pollRxDone w1.i2cSequentialRxDone))

/-- A call of `HAL_GetTick`: the tick count as an unsigned 32-bit value. -/
def HAL_GetTick (env : Env) (w : World) : Nat × World :=
  let t := env.uwTick w.clock % 4294967296
  (t, (interrupts env w).emit (Event.getTick t))

/-- A call of `HAL_I2C_Master_Seq_Transmit_IT` on `platform->hi2c`.  The device
address is the same constant in every call and is left to the environment. -/
def HAL_I2C_Master_Seq_Transmit_IT (env : Env) (wbuf : List Nat) (wlen : Int)
    (opt : XferOptions) (w : World) : HAL_StatusTypeDef × World :=
  let w1 := interrupts env w
  let r := env.Seq_Transmit_IT w.clock wbuf wlen opt w1.hi2c
  (r.1, ({ w1 with hi2c := r.2 }).emit (Event.seqTransmitIT opt r.1))

/-- A call of `HAL_I2C_Master_Seq_Receive_IT` on `platform->hi2c`.  The bytes
received are written by the HAL behind `rbuf` and are not modelled. -/
def HAL_I2C_Master_Seq_Receive_IT (env : Env) (rlen : Int)
    (opt : XferOptions) (w : World) : HAL_StatusTypeDef × World :=
  let w1 := interrupts env w
  let r := env.Seq_Receive_IT w.clock rlen opt w1.hi2c
  (r.1, ({ w1 with hi2c := r.2 }).emit (Event.seqReceiveIT opt r.1))

/-- Subtraction of unsigned 32-bit values. -/
def uint32_sub (a b : Nat) : Nat :=
  (a + 4294967296 - b) % 4294967296

/-- The loop test `(HAL_GetTick() - startTick) > 1000`. -/
def deadline_expired (now startTick : Nat) : Bool :=
  decide (uint32_sub now startTick > 1000)

/-! ## The I2C NACK workaround -/

/-- The body of the deadline branch of `platform_write`, as a function on the
controller state: lock, clear the stop flag, reset CR2, force State and Mode,
unlock. -/
def I2C_NACK_WORKAROUND (h : I2C_HandleTypeDef) : I2C_HandleTypeDef :=
  let h1 := HAL_LOCK h
  let h2 := HAL_I2C_CLEAR_FLAG_STOPF h1
  let h3 := I2C_RESET_CR2 h2
  let h4 := { h3 with State := HAL_I2C_StateTypeDef.HAL_I2C_STATE_READY }
  let h5 := { h4 with Mode := HAL_I2C_ModeTypeDef.HAL_I2C_MODE_NONE }
  HAL_UNLOCK h5

/-- The events of the workaround, in program order. -/
def workaroundEvents : List Event :=
  [Event.lock, Event.clearStopFlag, Event.resetCR2,
   Event.setState HAL_I2C_StateTypeDef.HAL_I2C_STATE_READY,
   Event.setMode HAL_I2C_ModeTypeDef.HAL_I2C_MODE_NONE, Event.unlock]

/-- The deadline branch of `platform_write` on the program state.  Interrupts
serviced inside it could only set the completion flags, which are not read
again before the return. -/
def nack_workaround (w : World) : World :=
  { w with hi2c := I2C_NACK_WORKAROUND w.hi2c, trace := w.trace ++ workaroundEvents }

/-! ## platform_write -/

/-- The loop `while(i2cSequentialTxDone == 0)` of `platform_write` and the
`return 0` after it. -/
def platform_write_wait (env : Env) (startTick : Nat) : Nat → World → Option Int × World
  | 0, w => (none, w)
  | fuel + 1, w =>
    let p := read_i2cSequentialTxDone env w
    if p.1 = 0 then
      let t := HAL_GetTick env p.2
      if deadline_expired t.1 startTick then
        (some 0, nack_workaround t.2)
      else
        platform_write_wait env startTick fuel t.2
    else
      (some 0, p.2)

/-- Source: `platform_write`. -/
def platform_write (env : Env) (wbuf : List Nat) (wlen : Int) (fuel : Nat) (w : World) :
    Option Int × World :=
  let w1 := clear_i2cSequentialTxDone env w
  let t := HAL_GetTick env w1
  let s := HAL_I2C_Master_Seq_Transmit_IT env wbuf wlen XferOptions.I2C_FIRST_AND_LAST_FRAME t.2
  if s.1 ≠ HAL_StatusTypeDef.HAL_OK then
    (some s.1.toInt, s.2)
  else
    platform_write_wait env t.1 fuel s.2

/-! ## platform_write_read -/

/-- The loop `while(i2cSequentialRxDone == 0)` of `platform_write_read` and the
`return 0` after it. -/
def platform_write_read_rx_wait (env : Env) (startTick : Nat) :
    Nat → World → Option Int × World
  | 0, w => (none, w)
  | fuel + 1, w =>
    let p := read_i2cSequentialRxDone env w
    if p.1 = 0 then
      let t := HAL_GetTick env p.2
      if deadline_expired t.1 startTick then
        (some HAL_StatusTypeDef.HAL_TIMEOUT.toInt, t.2)
      else
        platform_write_read_rx_wait env startTick fuel t.2
    else
      (some 0, p.2)

/-- The loop `while(i2cSequentialTxDone == 0)` of `platform_write_read` and
everything after it: the read phase and the receive wait. -/
def platform_write_read_tx_wait (env : Env) (rlen : Int) (startTick : Nat) :
    Nat → World → Option Int × World
  | 0, w => (none, w)
  | fuel + 1, w =>
    let p := read_i2cSequentialTxDone env w
    if p.1 = 0 then
      let t := HAL_GetTick env p.2
      if deadline_expired t.1 startTick then
        (some HAL_StatusTypeDef.HAL_TIMEOUT.toInt, t.2)
      else
        platform_write_read_tx_wait env rlen startTick fuel t.2
    else
      let s := HAL_I2C_Master_Seq_Receive_IT env rlen XferOptions.I2C_LAST_FRAME p.2
      if s.1 ≠ HAL_StatusTypeDef.HAL_OK then
        (some s.1.toInt, s.2)
      else
        platform_write_read_rx_wait env startTick fuel s.2

/-- Source: `platform_write_read`. -/
def platform_write_read (env : Env) (wbuf : List Nat) (wlen : Int) (rlen : Int)
    (fuel : Nat) (w : World) : Option Int × World :=
  let w1 := clear_i2cSequentialTxDone env w
  let w2 := clear_i2cSequentialRxDone env w1
  let t := HAL_GetTick env w2
  let s := HAL_I2C_Master_Seq_Transmit_IT env wbuf wlen XferOptions.I2C_FIRST_FRAME t.2
  if s.1 ≠ HAL_StatusTypeDef.HAL_OK then
    (some s.1.toInt, s.2)
  else
    platform_write_read_tx_wait env rlen t.1 fuel s.2

/-! ## Static pool allocator (`USE_STATIC_ALLOC_RW` build) -/

/-- Source: `MEMORY_BLOCKS_NUM`. -/
def MEMORY_BLOCKS_NUM : Nat := 3

/-- Source: `struct memory_block`; `buf` holds the bytes of the block. -/
structure memory_block where
  buf : List Nat
  is_allocated : Nat
  deriving DecidableEq

/-- Pointer values seen by the allocator: `NULL`, the address of
`stwlc_alloc_buf[i].buf`, or any other address. -/
inductive Ptr
  | NULL
  | block (i : Nat)
  | other (addr : Nat)
  deriving DecidableEq

/-- The `for` loop of `platform_alloc_mem` from index `i`, with `n` indices
left to visit, and the `return NULL` after it. -/
def platform_alloc_mem_loop (pool : List memory_block) (i : Nat) : Nat → Ptr × List memory_block
  | 0 => (Ptr.NULL, pool)
  | n + 1 =>
    match pool.get? i with
    | some b =>
      if b.is_allocated = 0 then
        (Ptr.block i, pool.set i { b with is_allocated := 1 })
      else
        platform_alloc_mem_loop pool (i + 1) n
    | none => platform_alloc_mem_loop pool (i + 1) n

/-- Source: `platform_alloc_mem` in the static pool build; the size argument
is not used there. -/
def platform_alloc_mem (_size : Nat) (pool : List memory_block) : Ptr × List memory_block :=
  platform_alloc_mem_loop pool 0 MEMORY_BLOCKS_NUM

/-- The `for` loop of `platform_free_mem` from index `i`, with `n` indices left
to visit. -/
def platform_free_mem_loop (ptr : Ptr) (pool : List memory_block) (i : Nat) :
    Nat → List memory_block
  | 0 => pool
  | n + 1 =>
    match pool.get? i with
    | some b =>
      if Ptr.block i = ptr then
        platform_free_mem_loop ptr (pool.set i { b with is_allocated := 0 }) (i + 1) n
      else
        platform_free_mem_loop ptr pool (i + 1) n
    | none => platform_free_mem_loop ptr pool (i + 1) n

/-- Source: `platform_free_mem` in the static pool build. -/
def platform_free_mem (ptr : Ptr) (pool : List memory_block) : List memory_block :=
  platform_free_mem_loop ptr pool 0 MEMORY_BLOCKS_NUM

/-! ## Proof vocabulary -/

/-- Transfer direction, naming one of the two completion flags. -/
inductive Dir
  | tx
  | rx
  deriving DecidableEq

/-- The completion flag of a direction. -/
def World.done (w : World) : Dir → Nat
  | .tx => w.i2cSequentialTxDone
  | .rx => w.i2cSequentialRxDone

/-- The completion interrupt of a direction. -/
def irqOf : Dir → Irq
  | .tx => Irq.MasterTxCplt
  | .rx => Irq.MasterRxCplt

/-- The poll event of a direction. -/
def pollEvent : Dir → Nat → Event
  | .tx, v => Event.pollTxDone v
  | .rx, v => Event.pollRxDone v

/-- A read of the completion flag of a direction. -/
def readDone (env : Env) : Dir → World → Nat × World
  | .tx, w => read_i2cSequentialTxDone env w
  | .rx, w => read_i2cSequentialRxDone env w

/-- How a busy-wait loop stands when its fuel is used up or it is left. -/
inductive PollResult
  | pending
  | completed
  | expired
  deriving DecidableEq

/-- The shape shared by the three busy-wait loops: poll the flag, and while it
is zero test the deadline.  Returns how the loop ended, the fuel left and the
state reached. -/
def pollLoop (env : Env) (d : Dir) (startTick : Nat) : Nat → World → PollResult × Nat × World
  | 0, w => (PollResult.pending, 0, w)
  | fuel + 1, w =>
    let p := readDone env d w
    if p.1 = 0 then
      let t := HAL_GetTick env p.2
      if deadline_expired t.1 startTick then
        (PollResult.expired, fuel, t.2)
      else
        pollLoop env d startTick fuel t.2
    else
      (PollResult.completed, fuel, p.2)

/-- Events of loop iterations that neither saw the flag nor the deadline. -/
def IdleTrace (d : Dir) (startTick : Nat) (l : List Event) : Prop :=
  ∀ e ∈ l, e = pollEvent d 0 ∨ ∃ t, e = Event.getTick t ∧ deadline_expired t startTick = false

/-- The adapter writes to the controller state. -/
def Event.isControllerWrite : Event → Bool
  | .lock => true
  | .clearStopFlag => true
  | .resetCR2 => true
  | .setState _ => true
  | .setMode _ => true
  | .unlock => true
  | _ => false

/-- The adapter starts an asynchronous bus operation. -/
def Event.isAsyncOp : Event → Bool
  | .seqTransmitIT _ _ => true
  | .seqReceiveIT _ _ => true
  | _ => false

/-- The adapter starts the read phase. -/
def Event.isReceive : Event → Bool
  | .seqReceiveIT _ _ => true
  | _ => false

/-- The adapter polls a flag or the tick source. -/
def Event.isPoll : Event → Bool
  | .pollTxDone _ => true
  | .pollRxDone _ => true
  | .getTick _ => true
  | _ => false

/-- A call of the driver into the adapter. -/
inductive Call
  | write (wbuf : List Nat) (wlen : Int)
  | write_read (wbuf : List Nat) (wlen : Int) (rlen : Int)

/-- Run one call. -/
def runCall (env : Env) (fuel : Nat) (w : World) : Call → Option Int × World
  | .write wbuf wlen => platform_write env wbuf wlen fuel w
  | .write_read wbuf wlen rlen => platform_write_read env wbuf wlen rlen fuel w

/-- Calls issued one at a time: each starts when the previous one has returned;
a call that does not return within the fuel ends the run. -/
def runCalls (env : Env) (fuel : Nat) : List Call → World → World
  | [], w => w
  | c :: cs, w =>
    match runCall env fuel w c with
    | (some _, w1) => runCalls env fuel cs w1
    | (none, w1) => w1

/-- A pool without blocks allocated, whatever the blocks hold. -/
def freePool (b0 b1 b2 : List Nat) : List memory_block :=
  [{ buf := b0, is_allocated := 0 }, { buf := b1, is_allocated := 0 },
   { buf := b2, is_allocated := 0 }]

/-! ## Sample environments -/

/-- A controller at rest. -/
def idleHandle : I2C_HandleTypeDef :=
  { Lock := HAL_LockTypeDef.HAL_UNLOCKED, STOPF := false, CR2 := 0,
    State := HAL_I2C_StateTypeDef.HAL_I2C_STATE_READY,
    Mode := HAL_I2C_ModeTypeDef.HAL_I2C_MODE_NONE }

/-- A controller left in the middle of a transmission. -/
def stuckHandle : I2C_HandleTypeDef :=
  { Lock := HAL_LockTypeDef.HAL_UNLOCKED, STOPF := true, CR2 := 33628257,
    State := HAL_I2C_StateTypeDef.HAL_I2C_STATE_BUSY_TX,
    Mode := HAL_I2C_ModeTypeDef.HAL_I2C_MODE_MASTER }

/-- The program state at start-up. -/
def bootWorld : World :=
  { i2cSequentialRxDone := 0, i2cSequentialTxDone := 0, hi2c := idleHandle,
    clock := 0, trace := [] }

/-- A bus that accepts every transfer, leaves the controller busy and never
completes; the tick count advances `stride` ticks per step from `base`. -/
def silentEnv (base stride : Nat) : Env :=
  { uwTick := fun k => base + stride * k
    irq := fun _ => []
    Seq_Transmit_IT := fun _ _ _ _ _ => (HAL_StatusTypeDef.HAL_OK, stuckHandle)
    Seq_Receive_IT := fun _ _ _ _ => (HAL_StatusTypeDef.HAL_OK, stuckHandle) }

/-! ## The opening steps of a call -/

/-- The start tick `platform_write` records when called in state `w`: its
second step. -/
def platform_write_startTick (env : Env) (w : World) : Nat :=
  env.uwTick (w.clock + 1) % 4294967296

/-- The outcome of the transmit initiation of `platform_write` called in state
`w`: its third step. -/
def platform_write_init (env : Env) (wbuf : List Nat) (wlen : Int) (w : World) :
    HAL_StatusTypeDef × I2C_HandleTypeDef :=
  env.Seq_Transmit_IT (w.clock + 2) wbuf wlen XferOptions.I2C_FIRST_AND_LAST_FRAME w.hi2c

/-- The events of `platform_write` up to and including the initiation. -/
def platform_write_head (env : Env) (wbuf : List Nat) (wlen : Int) (w : World) : List Event :=
  [Event.clearTxDone, Event.getTick (platform_write_startTick env w),
   Event.seqTransmitIT XferOptions.I2C_FIRST_AND_LAST_FRAME (platform_write_init env wbuf wlen w).1]

/-- The start tick `platform_write_read` records when called in state `w`: its
third step. -/
def platform_write_read_startTick (env : Env) (w : World) : Nat :=
  env.uwTick (w.clock + 2) % 4294967296

/-- The outcome of the transmit initiation of `platform_write_read` called in
state `w`: its fourth step. -/
def platform_write_read_init (env : Env) (wbuf : List Nat) (wlen : Int) (w : World) :
    HAL_StatusTypeDef × I2C_HandleTypeDef :=
  env.Seq_Transmit_IT (w.clock + 3) wbuf wlen XferOptions.I2C_FIRST_FRAME w.hi2c

/-- The events of `platform_write_read` up to and including the transmit
initiation. -/
def platform_write_read_head (env : Env) (wbuf : List Nat) (wlen : Int) (w : World) :
    List Event :=
  [Event.clearTxDone, Event.clearRxDone, Event.getTick (platform_write_read_startTick env w),
   Event.seqTransmitIT XferOptions.I2C_FIRST_FRAME (platform_write_read_init env wbuf wlen w).1]

/-- The state in which `platform_write_read`, called in state `w`, enters its
first loop. -/
def platform_write_read_entry (env : Env) (wbuf : List Nat) (wlen : Int) (w : World) : World :=
  (HAL_I2C_Master_Seq_Transmit_IT env wbuf wlen XferOptions.I2C_FIRST_FRAME
    (HAL_GetTick env (clear_i2cSequentialRxDone env (clear_i2cSequentialTxDone env w))).2).2

/-- A bus on which one tick passes per step from `base`, the transmit
completes at step 902 and the receive at step 1052: for a call made at step 0
these are 900 and 1050 ticks after the start snapshot of step 2. -/
def sharedDeadlineEnv (base : Nat) : Env :=
  { uwTick := fun k => base + k
    irq := fun k =>
      if k = 902 then [Irq.MasterTxCplt] else if k = 1052 then [Irq.MasterRxCplt] else []
    Seq_Transmit_IT := fun _ _ _ _ _ => (HAL_StatusTypeDef.HAL_OK, stuckHandle)
    Seq_Receive_IT := fun _ _ _ _ => (HAL_StatusTypeDef.HAL_OK, stuckHandle) }

/-- A bus that is busy: every initiation is refused with HAL_BUSY and the
controller state is left alone. -/
def busyEnv : Env :=
  { uwTick := fun k => k
    irq := fun _ => []
    Seq_Transmit_IT := fun _ _ _ _ h => (HAL_StatusTypeDef.HAL_BUSY, h)
    Seq_Receive_IT := fun _ _ _ h => (HAL_StatusTypeDef.HAL_BUSY, h) }

/-- A bus that accepts every transfer and delivers a receive-complete
notification before every step, never a transmit-complete one; 300 ticks pass
per step. -/
def rxStormEnv : Env :=
  { uwTick := fun k => 300 * k
    irq := fun _ => [Irq.MasterRxCplt]
    Seq_Transmit_IT := fun _ _ _ _ _ => (HAL_StatusTypeDef.HAL_OK, stuckHandle)
    Seq_Receive_IT := fun _ _ _ _ => (HAL_StatusTypeDef.HAL_OK, stuckHandle) }

/-- A bus that accepts every transfer and delivers a transmit-complete
notification before every step, never a receive-complete one; 300 ticks pass
per step. -/
def txStormEnv : Env :=
  { uwTick := fun k => 300 * k
    irq := fun _ => [Irq.MasterTxCplt]
    Seq_Transmit_IT := fun _ _ _ _ _ => (HAL_StatusTypeDef.HAL_OK, stuckHandle)
    Seq_Receive_IT := fun _ _ _ _ => (HAL_StatusTypeDef.HAL_OK, stuckHandle) }

/-- A program state in which both completion flags are still set from earlier
traffic. -/
def staleWorld : World :=
  { i2cSequentialRxDone := 1, i2cSequentialTxDone := 1, hi2c := idleHandle,
    clock := 0, trace := [] }

/-! ## Basic facts about steps -/

theorem foldl_service_hi2c (l : List Irq) (w : World) :
    (l.foldl service w).hi2c = w.hi2c := by
  induction l generalizing w with
  | nil => rfl
  | cons i l ih => cases i <;> simp [List.foldl, ih, service, HAL_I2C_MasterTxCpltCallback,
      HAL_I2C_MasterRxCpltCallback]

theorem foldl_service_trace (l : List Irq) (w : World) :
    (l.foldl service w).trace = w.trace := by
  induction l generalizing w with
  | nil => rfl
  | cons i l ih => cases i <;> simp [List.foldl, ih, service, HAL_I2C_MasterTxCpltCallback,
      HAL_I2C_MasterRxCpltCallback]

theorem service_done_of_ne (d : Dir) (i : Irq) (w : World) (h : irqOf d ≠ i) :
    (service w i).done d = w.done d := by
  cases d <;> cases i <;> simp_all [service, irqOf, World.done, HAL_I2C_MasterTxCpltCallback,
    HAL_I2C_MasterRxCpltCallback]

theorem foldl_service_done (d : Dir) (l : List Irq) (w : World) (h : irqOf d ∉ l) :
    (l.foldl service w).done d = w.done d := by
  induction l generalizing w with
  | nil => rfl
  | cons i l ih =>
    simp only [List.mem_cons, not_or] at h
    simp only [List.foldl]
    rw [ih _ h.2, service_done_of_ne d i w h.1]

@[simp] theorem interrupts_clock (env : Env) (w : World) :
    (interrupts env w).clock = w.clock + 1 := rfl

@[simp] theorem interrupts_hi2c (env : Env) (w : World) :
    (interrupts env w).hi2c = w.hi2c := by
  simp [interrupts, foldl_service_hi2c]

@[simp] theorem interrupts_trace (env : Env) (w : World) :
    (interrupts env w).trace = w.trace := by
  simp [interrupts, foldl_service_trace]

theorem interrupts_done (env : Env) (d : Dir) (w : World) (h : irqOf d ∉ env.irq w.clock) :
    (interrupts env w).done d = w.done d := by
  have := foldl_service_done d (env.irq w.clock) w h
  cases d <;> simpa [interrupts, World.done] using this

@[simp] theorem readDone_clock (env : Env) (d : Dir) (w : World) :
    (readDone env d w).2.clock = w.clock + 1 := by
  cases d <;> rfl

@[simp] theorem readDone_hi2c (env : Env) (d : Dir) (w : World) :
    (readDone env d w).2.hi2c = w.hi2c := by
  cases d <;> simp [readDone, read_i2cSequentialTxDone, read_i2cSequentialRxDone, World.emit]

@[simp] theorem readDone_trace (env : Env) (d : Dir) (w : World) :
    (readDone env d w).2.trace = w.trace ++ [pollEvent d (readDone env d w).1] := by
  cases d <;> simp [readDone, read_i2cSequentialTxDone, read_i2cSequentialRxDone, World.emit,
    pollEvent]

theorem readDone_value (env : Env) (d : Dir) (w : World) :
    (readDone env d w).1 = (interrupts env w).done d := by
  cases d <;> rfl

theorem readDone_done (env : Env) (d e : Dir) (w : World) :
    (readDone env d w).2.done e = (interrupts env w).done e := by
  cases d <;> cases e <;> rfl

@[simp] theorem HAL_GetTick_value (env : Env) (w : World) :
    (HAL_GetTick env w).1 = env.uwTick w.clock % 4294967296 := rfl

@[simp] theorem HAL_GetTick_clock (env : Env) (w : World) :
    (HAL_GetTick env w).2.clock = w.clock + 1 := rfl

@[simp] theorem HAL_GetTick_hi2c (env : Env) (w : World) :
    (HAL_GetTick env w).2.hi2c = w.hi2c := by
  simp [HAL_GetTick, World.emit]

@[simp] theorem HAL_GetTick_trace (env : Env) (w : World) :
    (HAL_GetTick env w).2.trace = w.trace ++ [Event.getTick (env.uwTick w.clock % 4294967296)] := by
  simp [HAL_GetTick, World.emit]

theorem HAL_GetTick_done (env : Env) (e : Dir) (w : World) :
    (HAL_GetTick env w).2.done e = (interrupts env w).done e := by
  cases e <;> rfl

@[simp] theorem clearTx_clock (env : Env) (w : World) :
    (clear_i2cSequentialTxDone env w).clock = w.clock + 1 := rfl

@[simp] theorem clearTx_hi2c (env : Env) (w : World) :
    (clear_i2cSequentialTxDone env w).hi2c = w.hi2c := by
  simp [clear_i2cSequentialTxDone, World.emit]

@[simp] theorem clearTx_trace (env : Env) (w : World) :
    (clear_i2cSequentialTxDone env w).trace = w.trace ++ [Event.clearTxDone] := by
  simp [clear_i2cSequentialTxDone, World.emit]

@[simp] theorem clearRx_clock (env : Env) (w : World) :
    (clear_i2cSequentialRxDone env w).clock = w.clock + 1 := rfl

@[simp] theorem clearRx_hi2c (env : Env) (w : World) :
    (clear_i2cSequentialRxDone env w).hi2c = w.hi2c := by
  simp [clear_i2cSequentialRxDone, World.emit]

@[simp] theorem clearRx_trace (env : Env) (w : World) :
    (clear_i2cSequentialRxDone env w).trace = w.trace ++ [Event.clearRxDone] := by
  simp [clear_i2cSequentialRxDone, World.emit]

@[simp] theorem transmit_status (env : Env) (wbuf : List Nat) (wlen : Int) (opt : XferOptions)
    (w : World) :
    (HAL_I2C_Master_Seq_Transmit_IT env wbuf wlen opt w).1 =
      (env.Seq_Transmit_IT w.clock wbuf wlen opt w.hi2c).1 := by
  simp [HAL_I2C_Master_Seq_Transmit_IT]

@[simp] theorem transmit_clock (env : Env) (wbuf : List Nat) (wlen : Int) (opt : XferOptions)
    (w : World) :
    (HAL_I2C_Master_Seq_Transmit_IT env wbuf wlen opt w).2.clock = w.clock + 1 := rfl

@[simp] theorem transmit_hi2c (env : Env) (wbuf : List Nat) (wlen : Int) (opt : XferOptions)
    (w : World) :
    (HAL_I2C_Master_Seq_Transmit_IT env wbuf wlen opt w).2.hi2c =
      (env.Seq_Transmit_IT w.clock wbuf wlen opt w.hi2c).2 := by
  simp [HAL_I2C_Master_Seq_Transmit_IT, World.emit]

@[simp] theorem transmit_trace (env : Env) (wbuf : List Nat) (wlen : Int) (opt : XferOptions)
    (w : World) :
    (HAL_I2C_Master_Seq_Transmit_IT env wbuf wlen opt w).2.trace =
      w.trace ++ [Event.seqTransmitIT opt (env.Seq_Transmit_IT w.clock wbuf wlen opt w.hi2c).1] := by
  simp [HAL_I2C_Master_Seq_Transmit_IT, World.emit]

theorem transmit_done (env : Env) (wbuf : List Nat) (wlen : Int) (opt : XferOptions)
    (e : Dir) (w : World) :
    (HAL_I2C_Master_Seq_Transmit_IT env wbuf wlen opt w).2.done e = (interrupts env w).done e := by
  cases e <;> rfl

@[simp] theorem receive_status (env : Env) (rlen : Int) (opt : XferOptions) (w : World) :
    (HAL_I2C_Master_Seq_Receive_IT env rlen opt w).1 =
      (env.Seq_Receive_IT w.clock rlen opt w.hi2c).1 := by
  simp [HAL_I2C_Master_Seq_Receive_IT]

@[simp] theorem receive_clock (env : Env) (rlen : Int) (opt : XferOptions) (w : World) :
    (HAL_I2C_Master_Seq_Receive_IT env rlen opt w).2.clock = w.clock + 1 := rfl

@[simp] theorem receive_hi2c (env : Env) (rlen : Int) (opt : XferOptions) (w : World) :
    (HAL_I2C_Master_Seq_Receive_IT env rlen opt w).2.hi2c =
      (env.Seq_Receive_IT w.clock rlen opt w.hi2c).2 := by
  simp [HAL_I2C_Master_Seq_Receive_IT, World.emit]

@[simp] theorem receive_trace (env : Env) (rlen : Int) (opt : XferOptions) (w : World) :
    (HAL_I2C_Master_Seq_Receive_IT env rlen opt w).2.trace =
      w.trace ++ [Event.seqReceiveIT opt (env.Seq_Receive_IT w.clock rlen opt w.hi2c).1] := by
  simp [HAL_I2C_Master_Seq_Receive_IT, World.emit]

theorem receive_done (env : Env) (rlen : Int) (opt : XferOptions) (e : Dir) (w : World) :
    (HAL_I2C_Master_Seq_Receive_IT env rlen opt w).2.done e = (interrupts env w).done e := by
  cases e <;> rfl

@[simp] theorem nack_workaround_trace (w : World) :
    (nack_workaround w).trace = w.trace ++ workaroundEvents := rfl

@[simp] theorem nack_workaround_hi2c (w : World) :
    (nack_workaround w).hi2c = I2C_NACK_WORKAROUND w.hi2c := rfl

@[simp] theorem nack_workaround_clock (w : World) :
    (nack_workaround w).clock = w.clock := rfl

theorem deadline_expired_iff (T0 d : Nat) (hd : d < 4294967296) :
    deadline_expired ((T0 + d) % 4294967296) (T0 % 4294967296) = true ↔ 1000 < d := by
  unfold deadline_expired uint32_sub
  simp only [decide_eq_true_eq]
  omega

/-! ## The three loops are instances of the shared loop shape -/

theorem platform_write_wait_eq (env : Env) (startTick : Nat) (fuel : Nat) (w : World) :
    platform_write_wait env startTick fuel w =
      match pollLoop env Dir.tx startTick fuel w with
      | (PollResult.pending, _, w1) => (none, w1)
      | (PollResult.completed, _, w1) => (some 0, w1)
      | (PollResult.expired, _, w1) => (some 0, nack_workaround w1) := by
  induction fuel generalizing w with
  | zero => rfl
  | succ n ih =>
    simp only [platform_write_wait, pollLoop, readDone]
    split_ifs <;> simp [ih]

theorem platform_write_read_rx_wait_eq (env : Env) (startTick : Nat) (fuel : Nat) (w : World) :
    platform_write_read_rx_wait env startTick fuel w =
      match pollLoop env Dir.rx startTick fuel w with
      | (PollResult.pending, _, w1) => (none, w1)
      | (PollResult.completed, _, w1) => (some 0, w1)
      | (PollResult.expired, _, w1) => (some 3, w1) := by
  induction fuel generalizing w with
  | zero => rfl
  | succ n ih =>
    simp only [platform_write_read_rx_wait, pollLoop, readDone]
    split_ifs <;> simp [ih, HAL_StatusTypeDef.toInt]

theorem platform_write_read_tx_wait_eq (env : Env) (rlen : Int) (startTick : Nat) (fuel : Nat)
    (w : World) :
    platform_write_read_tx_wait env rlen startTick fuel w =
      match pollLoop env Dir.tx startTick fuel w with
      | (PollResult.pending, _, w1) => (none, w1)
      | (PollResult.completed, left, w1) =>
        if (HAL_I2C_Master_Seq_Receive_IT env rlen XferOptions.I2C_LAST_FRAME w1).1
            ≠ HAL_StatusTypeDef.HAL_OK then
          (some (HAL_I2C_Master_Seq_Receive_IT env rlen XferOptions.I2C_LAST_FRAME w1).1.toInt,
            (HAL_I2C_Master_Seq_Receive_IT env rlen XferOptions.I2C_LAST_FRAME w1).2)
        else
          platform_write_read_rx_wait env startTick left
            (HAL_I2C_Master_Seq_Receive_IT env rlen XferOptions.I2C_LAST_FRAME w1).2
      | (PollResult.expired, _, w1) => (some 3, w1) := by
  induction fuel generalizing w with
  | zero => rfl
  | succ n ih =>
    simp only [platform_write_read_tx_wait, pollLoop, readDone]
    split_ifs <;> simp_all [HAL_StatusTypeDef.toInt]

/-! ## What a busy-wait loop does -/

theorem pollLoop_spec (env : Env) (d : Dir) (startTick : Nat) (fuel : Nat) (w : World) :
    (pollLoop env d startTick fuel w).2.2.hi2c = w.hi2c ∧
    w.clock ≤ (pollLoop env d startTick fuel w).2.2.clock ∧
    ∃ pre, IdleTrace d startTick pre ∧
      (((pollLoop env d startTick fuel w).1 = PollResult.pending ∧
          (pollLoop env d startTick fuel w).2.2.trace = w.trace ++ pre) ∨
       ((pollLoop env d startTick fuel w).1 = PollResult.completed ∧
          ∃ v, v ≠ 0 ∧
            (pollLoop env d startTick fuel w).2.2.trace = w.trace ++ pre ++ [pollEvent d v]) ∨
       ((pollLoop env d startTick fuel w).1 = PollResult.expired ∧
          ∃ t, deadline_expired t startTick = true ∧
            (pollLoop env d startTick fuel w).2.2.trace =
              w.trace ++ pre ++ [pollEvent d 0, Event.getTick t])) := by
  induction fuel generalizing w with
  | zero =>
    refine ⟨rfl, le_refl _, [], ?_, Or.inl ⟨rfl, by simp [pollLoop]⟩⟩
    intro e he
    cases he
  | succ n ih =>
    simp only [pollLoop]
    by_cases hp : (readDone env d w).1 = 0
    · simp only [hp, if_true]
      by_cases hx : deadline_expired (HAL_GetTick env (readDone env d w).2).1 startTick = true
      · simp only [hx, if_true]
        refine ⟨by simp, by simp; omega, [], ?_, Or.inr (Or.inr ⟨trivial, _, hx, by simp [hp]⟩)⟩
        intro e he
        cases he
      · simp only [hx]
        obtain ⟨h1, h2, pre, hpre, h3⟩ := ih (HAL_GetTick env (readDone env d w).2).2
        refine ⟨by simpa using h1, ?_, pollEvent d 0 ::
          Event.getTick (env.uwTick (w.clock + 1) % 4294967296) :: pre, ?_, ?_⟩
        · simp only [HAL_GetTick_clock, readDone_clock] at h2
          simp only [Bool.false_eq_true, if_false]
          omega
        · intro e he
          simp only [List.mem_cons] at he
          rcases he with he | he | he
          · exact Or.inl he
          · refine Or.inr ⟨_, he, ?_⟩
            simpa using hx
          · exact hpre e he
        · simp only [Bool.false_eq_true, if_false]
          rcases h3 with ⟨ha, hb⟩ | ⟨ha, v, hv, hb⟩ | ⟨ha, t, ht, hb⟩
          · exact Or.inl ⟨ha, by simp [hb, hp]⟩
          · exact Or.inr (Or.inl ⟨ha, v, hv, by simp [hb, hp]⟩)
          · exact Or.inr (Or.inr ⟨ha, t, ht, by simp [hb, hp]⟩)
    · simp only [hp, if_false]
      refine ⟨by simp, by simp, [], ?_, Or.inr (Or.inl ⟨trivial, _, hp, by simp⟩)⟩
      intro e he
      cases he

/-! ## Completion flags change only through matching notifications -/

theorem interrupts_done_cause (env : Env) (e : Dir) (w : World)
    (h : (interrupts env w).done e ≠ 0) :
    w.done e ≠ 0 ∨ irqOf e ∈ env.irq w.clock := by
  by_cases hm : irqOf e ∈ env.irq w.clock
  · exact Or.inr hm
  · left
    rwa [interrupts_done env e w hm] at h

theorem pollLoop_done_cause (env : Env) (d : Dir) (startTick : Nat) (e : Dir) (fuel : Nat)
    (w : World) (h : (pollLoop env d startTick fuel w).2.2.done e ≠ 0) :
    w.done e ≠ 0 ∨ ∃ k, w.clock ≤ k ∧ irqOf e ∈ env.irq k := by
  induction fuel generalizing w with
  | zero => exact Or.inl h
  | succ n ih =>
    simp only [pollLoop] at h
    have step1 : (readDone env d w).2.done e ≠ 0 →
        w.done e ≠ 0 ∨ ∃ k, w.clock ≤ k ∧ irqOf e ∈ env.irq k := by
      intro h1
      rw [readDone_done] at h1
      rcases interrupts_done_cause env e w h1 with h2 | h2
      · exact Or.inl h2
      · exact Or.inr ⟨w.clock, le_refl _, h2⟩
    have step2 : (HAL_GetTick env (readDone env d w).2).2.done e ≠ 0 →
        w.done e ≠ 0 ∨ ∃ k, w.clock ≤ k ∧ irqOf e ∈ env.irq k := by
      intro h1
      rw [HAL_GetTick_done] at h1
      rcases interrupts_done_cause env e _ h1 with h2 | h2
      · exact step1 h2
      · exact Or.inr ⟨w.clock + 1, by omega, by simpa using h2⟩
    by_cases hp : (readDone env d w).1 = 0
    · simp only [hp, if_true] at h
      by_cases hx : deadline_expired (HAL_GetTick env (readDone env d w).2).1 startTick = true
      · simp only [hx, if_true] at h
        exact step2 h
      · simp only [hx, Bool.false_eq_true, if_false] at h
        rcases ih _ h with h2 | ⟨k, hk, hk2⟩
        · exact step2 h2
        · refine Or.inr ⟨k, ?_, hk2⟩
          simp only [HAL_GetTick_clock, readDone_clock] at hk
          omega
    · simp only [hp, if_false] at h
      exact step1 h

theorem pollLoop_completed_done (env : Env) (d : Dir) (startTick : Nat) (fuel : Nat) (w : World)
    (h : (pollLoop env d startTick fuel w).1 = PollResult.completed) :
    (pollLoop env d startTick fuel w).2.2.done d ≠ 0 := by
  induction fuel generalizing w with
  | zero => simp [pollLoop] at h
  | succ n ih =>
    simp only [pollLoop] at h ⊢
    by_cases hp : (readDone env d w).1 = 0
    · simp only [hp, if_true] at h ⊢
      by_cases hx : deadline_expired (HAL_GetTick env (readDone env d w).2).1 startTick = true
      · rw [if_pos hx] at h
        cases h
      · simp only [hx, Bool.false_eq_true, if_false] at h ⊢
        exact ih _ h
    · simp only [hp, if_false]
      rw [readDone_done, ← readDone_value]
      exact hp

/-- A completed wait was caused: the flag was already set when the loop was
entered, or a matching notification was serviced from then on. -/
theorem pollLoop_completed_cause (env : Env) (d : Dir) (startTick : Nat) (fuel : Nat) (w : World)
    (h : (pollLoop env d startTick fuel w).1 = PollResult.completed) :
    w.done d ≠ 0 ∨ ∃ k, w.clock ≤ k ∧ irqOf d ∈ env.irq k :=
  pollLoop_done_cause env d startTick d fuel w (pollLoop_completed_done env d startTick fuel w h)

/-! ## Termination of a busy-wait loop -/

theorem pollLoop_returns (env : Env) (d : Dir) (startTick : Nat) (K : Nat)
    (hK : deadline_expired (env.uwTick K % 4294967296) startTick = true)
    (hK1 : deadline_expired (env.uwTick (K + 1) % 4294967296) startTick = true)
    (fuel : Nat) (w : World) (hw : w.clock ≤ K) (hf : K + 1 < w.clock + 2 * fuel) :
    (pollLoop env d startTick fuel w).1 ≠ PollResult.pending := by
  induction fuel generalizing w with
  | zero => omega
  | succ n ih =>
    simp only [pollLoop]
    by_cases hp : (readDone env d w).1 = 0
    · simp only [hp, if_true]
      by_cases hx : deadline_expired (HAL_GetTick env (readDone env d w).2).1 startTick = true
      · rw [if_pos hx]
        intro hc
        cases hc
      · simp only [hx, Bool.false_eq_true, if_false]
        have hne : w.clock + 1 ≠ K ∧ w.clock + 1 ≠ K + 1 := by
          simp only [HAL_GetTick_value, readDone_clock] at hx
          constructor
          · intro hc
            rw [hc] at hx
            exact hx hK
          · intro hc
            rw [hc] at hx
            exact hx hK1
        apply ih
        · simp only [HAL_GetTick_clock, readDone_clock]
          omega
        · simp only [HAL_GetTick_clock, readDone_clock]
          omega
    · simp [hp]

/-! ## What the loops of the adapter do -/

theorem platform_write_wait_spec (env : Env) (startTick : Nat) (fuel : Nat) (w : World) :
    w.clock ≤ (platform_write_wait env startTick fuel w).2.clock ∧
    ∃ pre, IdleTrace Dir.tx startTick pre ∧
      (((platform_write_wait env startTick fuel w).1 = none ∧
          (platform_write_wait env startTick fuel w).2.trace = w.trace ++ pre ∧
          (platform_write_wait env startTick fuel w).2.hi2c = w.hi2c) ∨
       ((platform_write_wait env startTick fuel w).1 = some 0 ∧
          (∃ v, v ≠ 0 ∧ (platform_write_wait env startTick fuel w).2.trace =
            w.trace ++ pre ++ [Event.pollTxDone v]) ∧
          (platform_write_wait env startTick fuel w).2.hi2c = w.hi2c ∧
          (w.done Dir.tx ≠ 0 ∨ ∃ k, w.clock ≤ k ∧ Irq.MasterTxCplt ∈ env.irq k)) ∨
       ((platform_write_wait env startTick fuel w).1 = some 0 ∧
          (∃ t, deadline_expired t startTick = true ∧
            (platform_write_wait env startTick fuel w).2.trace =
              w.trace ++ pre ++ [Event.pollTxDone 0, Event.getTick t] ++ workaroundEvents) ∧
          (platform_write_wait env startTick fuel w).2.hi2c = I2C_NACK_WORKAROUND w.hi2c)) := by
  rw [platform_write_wait_eq]
  obtain ⟨h1, h2, pre, hpre, h3⟩ := pollLoop_spec env Dir.tx startTick fuel w
  have hc := pollLoop_completed_cause env Dir.tx startTick fuel w
  rcases hpl : pollLoop env Dir.tx startTick fuel w with ⟨r, left, w1⟩
  rw [hpl] at h1 h2 h3 hc
  simp only at h1 h2 h3 hc
  refine ⟨?_, pre, hpre, ?_⟩
  · cases r <;> simpa using h2
  · rcases h3 with ⟨ha, hb⟩ | ⟨ha, v, hv, hb⟩ | ⟨ha, t, ht, hb⟩
    · subst ha
      exact Or.inl ⟨rfl, hb, h1⟩
    · subst ha
      exact Or.inr (Or.inl ⟨rfl, ⟨v, hv, by simpa [pollEvent] using hb⟩, h1,
        by simpa [irqOf] using hc rfl⟩)
    · subst ha
      refine Or.inr (Or.inr ⟨rfl, ⟨t, ht, ?_⟩, ?_⟩)
      · simp [hb, pollEvent]
      · simp [h1]

theorem platform_write_read_rx_wait_spec (env : Env) (startTick : Nat) (fuel : Nat) (w : World) :
    w.clock ≤ (platform_write_read_rx_wait env startTick fuel w).2.clock ∧
    (platform_write_read_rx_wait env startTick fuel w).2.hi2c = w.hi2c ∧
    ∃ pre, IdleTrace Dir.rx startTick pre ∧
      (((platform_write_read_rx_wait env startTick fuel w).1 = none ∧
          (platform_write_read_rx_wait env startTick fuel w).2.trace = w.trace ++ pre) ∨
       ((platform_write_read_rx_wait env startTick fuel w).1 = some 0 ∧
          (∃ v, v ≠ 0 ∧ (platform_write_read_rx_wait env startTick fuel w).2.trace =
            w.trace ++ pre ++ [Event.pollRxDone v]) ∧
          (w.done Dir.rx ≠ 0 ∨ ∃ k, w.clock ≤ k ∧ Irq.MasterRxCplt ∈ env.irq k)) ∨
       ((platform_write_read_rx_wait env startTick fuel w).1 = some 3 ∧
          (∃ t, deadline_expired t startTick = true ∧
            (platform_write_read_rx_wait env startTick fuel w).2.trace =
              w.trace ++ pre ++ [Event.pollRxDone 0, Event.getTick t]))) := by
  rw [platform_write_read_rx_wait_eq]
  obtain ⟨h1, h2, pre, hpre, h3⟩ := pollLoop_spec env Dir.rx startTick fuel w
  have hc := pollLoop_completed_cause env Dir.rx startTick fuel w
  rcases hpl : pollLoop env Dir.rx startTick fuel w with ⟨r, left, w1⟩
  rw [hpl] at h1 h2 h3 hc
  simp only at h1 h2 h3 hc
  refine ⟨?_, ?_, pre, hpre, ?_⟩
  · cases r <;> simpa using h2
  · cases r <;> simpa using h1
  · rcases h3 with ⟨ha, hb⟩ | ⟨ha, v, hv, hb⟩ | ⟨ha, t, ht, hb⟩
    · subst ha
      exact Or.inl ⟨rfl, hb⟩
    · subst ha
      exact Or.inr (Or.inl ⟨rfl, ⟨v, hv, by simpa [pollEvent] using hb⟩,
        by simpa [irqOf] using hc rfl⟩)
    · subst ha
      exact Or.inr (Or.inr ⟨rfl, ⟨t, ht, by simpa [pollEvent] using hb⟩⟩)

/-! ## The flags on entry to the loops -/

theorem clearTx_done_tx (env : Env) (w : World) :
    (clear_i2cSequentialTxDone env w).done Dir.tx = 0 := rfl

theorem clearRx_done_rx (env : Env) (w : World) :
    (clear_i2cSequentialRxDone env w).done Dir.rx = 0 := rfl

theorem clearRx_done_tx (env : Env) (w : World) :
    (clear_i2cSequentialRxDone env w).done Dir.tx = (interrupts env w).done Dir.tx := rfl

/-- On entry to the loop of `platform_write` the transmit flag is set only if
a transmit notification was serviced after the flag was cleared. -/
theorem platform_write_entry_tx (env : Env) (wbuf : List Nat) (wlen : Int) (opt : XferOptions)
    (w : World)
    (h : (HAL_I2C_Master_Seq_Transmit_IT env wbuf wlen opt
      (HAL_GetTick env (clear_i2cSequentialTxDone env w)).2).2.done Dir.tx ≠ 0) :
    ∃ k, w.clock < k ∧ Irq.MasterTxCplt ∈ env.irq k := by
  rw [transmit_done] at h
  rcases interrupts_done_cause env Dir.tx _ h with h1 | h1
  · rw [HAL_GetTick_done] at h1
    rcases interrupts_done_cause env Dir.tx _ h1 with h2 | h2
    · exact absurd (clearTx_done_tx env w) h2
    · exact ⟨w.clock + 1, by omega, by simpa [irqOf] using h2⟩
  · exact ⟨w.clock + 2, by omega, by simpa [irqOf] using h1⟩

/-- On entry to the first loop of `platform_write_read` the transmit flag is
set only if a transmit notification was serviced after the flag was cleared. -/
theorem platform_write_read_entry_tx (env : Env) (wbuf : List Nat) (wlen : Int)
    (opt : XferOptions) (w : World)
    (h : (HAL_I2C_Master_Seq_Transmit_IT env wbuf wlen opt
      (HAL_GetTick env (clear_i2cSequentialRxDone env
        (clear_i2cSequentialTxDone env w))).2).2.done Dir.tx ≠ 0) :
    ∃ k, w.clock < k ∧ Irq.MasterTxCplt ∈ env.irq k := by
  rw [transmit_done] at h
  rcases interrupts_done_cause env Dir.tx _ h with h1 | h1
  · rw [HAL_GetTick_done] at h1
    rcases interrupts_done_cause env Dir.tx _ h1 with h2 | h2
    · rw [clearRx_done_tx] at h2
      rcases interrupts_done_cause env Dir.tx _ h2 with h3 | h3
      · exact absurd (clearTx_done_tx env w) h3
      · exact ⟨w.clock + 1, by omega, by simpa [irqOf] using h3⟩
    · exact ⟨w.clock + 2, by omega, by simpa [irqOf] using h2⟩
  · exact ⟨w.clock + 3, by omega, by simpa [irqOf] using h1⟩

/-- On entry to the first loop of `platform_write_read` the receive flag is set
only if a receive notification was serviced after the flag was cleared. -/
theorem platform_write_read_entry_rx (env : Env) (wbuf : List Nat) (wlen : Int)
    (opt : XferOptions) (w : World)
    (h : (HAL_I2C_Master_Seq_Transmit_IT env wbuf wlen opt
      (HAL_GetTick env (clear_i2cSequentialRxDone env
        (clear_i2cSequentialTxDone env w))).2).2.done Dir.rx ≠ 0) :
    ∃ k, w.clock + 1 < k ∧ Irq.MasterRxCplt ∈ env.irq k := by
  rw [transmit_done] at h
  rcases interrupts_done_cause env Dir.rx _ h with h1 | h1
  · rw [HAL_GetTick_done] at h1
    rcases interrupts_done_cause env Dir.rx _ h1 with h2 | h2
    · exact absurd (clearRx_done_rx env _) h2
    · exact ⟨w.clock + 2, by omega, by simpa [irqOf] using h2⟩
  · exact ⟨w.clock + 3, by omega, by simpa [irqOf] using h1⟩

/-! ## What platform_write does -/

theorem platform_write_spec (env : Env) (wbuf : List Nat) (wlen : Int) (fuel : Nat) (w : World) :
    w.clock ≤ (platform_write env wbuf wlen fuel w).2.clock ∧
    ∃ pre, IdleTrace Dir.tx (platform_write_startTick env w) pre ∧
      (((platform_write_init env wbuf wlen w).1 ≠ HAL_StatusTypeDef.HAL_OK ∧
          (platform_write env wbuf wlen fuel w).1 =
            some (platform_write_init env wbuf wlen w).1.toInt ∧
          (platform_write env wbuf wlen fuel w).2.trace =
            w.trace ++ platform_write_head env wbuf wlen w ∧
          (platform_write env wbuf wlen fuel w).2.hi2c = (platform_write_init env wbuf wlen w).2) ∨
       ((platform_write_init env wbuf wlen w).1 = HAL_StatusTypeDef.HAL_OK ∧
          (platform_write env wbuf wlen fuel w).1 = none ∧
          (platform_write env wbuf wlen fuel w).2.trace =
            w.trace ++ platform_write_head env wbuf wlen w ++ pre ∧
          (platform_write env wbuf wlen fuel w).2.hi2c = (platform_write_init env wbuf wlen w).2) ∨
       ((platform_write_init env wbuf wlen w).1 = HAL_StatusTypeDef.HAL_OK ∧
          (platform_write env wbuf wlen fuel w).1 = some 0 ∧
          (∃ v, v ≠ 0 ∧ (platform_write env wbuf wlen fuel w).2.trace =
            w.trace ++ platform_write_head env wbuf wlen w ++ pre ++ [Event.pollTxDone v]) ∧
          (platform_write env wbuf wlen fuel w).2.hi2c = (platform_write_init env wbuf wlen w).2 ∧
          (∃ k, w.clock < k ∧ Irq.MasterTxCplt ∈ env.irq k)) ∨
       ((platform_write_init env wbuf wlen w).1 = HAL_StatusTypeDef.HAL_OK ∧
          (platform_write env wbuf wlen fuel w).1 = some 0 ∧
          (∃ t, deadline_expired t (platform_write_startTick env w) = true ∧
            (platform_write env wbuf wlen fuel w).2.trace =
              w.trace ++ platform_write_head env wbuf wlen w ++ pre ++
                [Event.pollTxDone 0, Event.getTick t] ++ workaroundEvents) ∧
          (platform_write env wbuf wlen fuel w).2.hi2c =
            I2C_NACK_WORKAROUND (platform_write_init env wbuf wlen w).2)) := by
  have hst : (HAL_I2C_Master_Seq_Transmit_IT env wbuf wlen XferOptions.I2C_FIRST_AND_LAST_FRAME
      (HAL_GetTick env (clear_i2cSequentialTxDone env w)).2).1 =
        (platform_write_init env wbuf wlen w).1 := by
    simp [platform_write_init]
  have hh : (HAL_I2C_Master_Seq_Transmit_IT env wbuf wlen XferOptions.I2C_FIRST_AND_LAST_FRAME
      (HAL_GetTick env (clear_i2cSequentialTxDone env w)).2).2.hi2c =
        (platform_write_init env wbuf wlen w).2 := by
    simp [platform_write_init]
  have ht : (HAL_I2C_Master_Seq_Transmit_IT env wbuf wlen XferOptions.I2C_FIRST_AND_LAST_FRAME
      (HAL_GetTick env (clear_i2cSequentialTxDone env w)).2).2.trace =
        w.trace ++ platform_write_head env wbuf wlen w := by
    simp [platform_write_init, platform_write_head, platform_write_startTick]
  have hT : (HAL_GetTick env (clear_i2cSequentialTxDone env w)).1 =
      platform_write_startTick env w := by
    simp [platform_write_startTick]
  have hent := platform_write_entry_tx env wbuf wlen XferOptions.I2C_FIRST_AND_LAST_FRAME w
  unfold platform_write
  simp only [hst, hT]
  by_cases hok : (platform_write_init env wbuf wlen w).1 = HAL_StatusTypeDef.HAL_OK
  · simp only [hok, ne_eq, not_true_eq_false, if_false]
    obtain ⟨hc, pre, hpre, hcases⟩ := platform_write_wait_spec env (platform_write_startTick env w)
      fuel (HAL_I2C_Master_Seq_Transmit_IT env wbuf wlen XferOptions.I2C_FIRST_AND_LAST_FRAME
        (HAL_GetTick env (clear_i2cSequentialTxDone env w)).2).2
    rw [ht, hh] at hcases
    refine ⟨?_, pre, hpre, ?_⟩
    · simp only [transmit_clock, HAL_GetTick_clock, clearTx_clock] at hc
      omega
    · rcases hcases with ⟨ha, hb, hd⟩ | ⟨ha, hb, hd, he⟩ | ⟨ha, hb, hd⟩
      · exact Or.inr (Or.inl ⟨trivial, ha, hb, hd⟩)
      · refine Or.inr (Or.inr (Or.inl ⟨trivial, ha, hb, hd, ?_⟩))
        rcases he with he | ⟨k, hk, hk2⟩
        · exact hent he
        · refine ⟨k, ?_, hk2⟩
          simp only [transmit_clock, HAL_GetTick_clock, clearTx_clock] at hk
          omega
      · exact Or.inr (Or.inr (Or.inr ⟨trivial, ha, hb, hd⟩))
  · simp only [hok, ne_eq, not_false_eq_true, if_true]
    refine ⟨by simp; omega, [], ?_, Or.inl ⟨trivial, trivial, ht, hh⟩⟩
    intro e he
    cases he

/-! ## What platform_write_read does -/

theorem platform_write_read_spec (env : Env) (wbuf : List Nat) (wlen : Int) (rlen : Int)
    (fuel : Nat) (w : World) :
    w.clock ≤ (platform_write_read env wbuf wlen rlen fuel w).2.clock ∧
    ∃ pre, IdleTrace Dir.tx (platform_write_read_startTick env w) pre ∧
      (((platform_write_read_init env wbuf wlen w).1 ≠ HAL_StatusTypeDef.HAL_OK ∧
          (platform_write_read env wbuf wlen rlen fuel w).1 =
            some (platform_write_read_init env wbuf wlen w).1.toInt ∧
          (platform_write_read env wbuf wlen rlen fuel w).2.trace =
            w.trace ++ platform_write_read_head env wbuf wlen w ∧
          (platform_write_read env wbuf wlen rlen fuel w).2.hi2c =
            (platform_write_read_init env wbuf wlen w).2) ∨
       ((platform_write_read_init env wbuf wlen w).1 = HAL_StatusTypeDef.HAL_OK ∧
          (platform_write_read env wbuf wlen rlen fuel w).1 = none ∧
          (platform_write_read env wbuf wlen rlen fuel w).2.trace =
            w.trace ++ platform_write_read_head env wbuf wlen w ++ pre ∧
          (platform_write_read env wbuf wlen rlen fuel w).2.hi2c =
            (platform_write_read_init env wbuf wlen w).2) ∨
       ((platform_write_read_init env wbuf wlen w).1 = HAL_StatusTypeDef.HAL_OK ∧
          (platform_write_read env wbuf wlen rlen fuel w).1 = some 3 ∧
          (∃ t, deadline_expired t (platform_write_read_startTick env w) = true ∧
            (platform_write_read env wbuf wlen rlen fuel w).2.trace =
              w.trace ++ platform_write_read_head env wbuf wlen w ++ pre ++
                [Event.pollTxDone 0, Event.getTick t]) ∧
          (platform_write_read env wbuf wlen rlen fuel w).2.hi2c =
            (platform_write_read_init env wbuf wlen w).2) ∨
       ((platform_write_read_init env wbuf wlen w).1 = HAL_StatusTypeDef.HAL_OK ∧
          ∃ v k pre2, v ≠ 0 ∧ IdleTrace Dir.rx (platform_write_read_startTick env w) pre2 ∧
            (∃ j, w.clock < j ∧ Irq.MasterTxCplt ∈ env.irq j) ∧
            (platform_write_read env wbuf wlen rlen fuel w).2.hi2c =
              (env.Seq_Receive_IT k rlen XferOptions.I2C_LAST_FRAME
                (platform_write_read_init env wbuf wlen w).2).2 ∧
            (((env.Seq_Receive_IT k rlen XferOptions.I2C_LAST_FRAME
                  (platform_write_read_init env wbuf wlen w).2).1 ≠ HAL_StatusTypeDef.HAL_OK ∧
                (platform_write_read env wbuf wlen rlen fuel w).1 =
                  some (env.Seq_Receive_IT k rlen XferOptions.I2C_LAST_FRAME
                    (platform_write_read_init env wbuf wlen w).2).1.toInt ∧
                (platform_write_read env wbuf wlen rlen fuel w).2.trace =
                  w.trace ++ platform_write_read_head env wbuf wlen w ++ pre ++
                    [Event.pollTxDone v, Event.seqReceiveIT XferOptions.I2C_LAST_FRAME
                      (env.Seq_Receive_IT k rlen XferOptions.I2C_LAST_FRAME
                        (platform_write_read_init env wbuf wlen w).2).1]) ∨
             ((env.Seq_Receive_IT k rlen XferOptions.I2C_LAST_FRAME
                  (platform_write_read_init env wbuf wlen w).2).1 = HAL_StatusTypeDef.HAL_OK ∧
                (platform_write_read env wbuf wlen rlen fuel w).1 = none ∧
                (platform_write_read env wbuf wlen rlen fuel w).2.trace =
                  w.trace ++ platform_write_read_head env wbuf wlen w ++ pre ++
                    [Event.pollTxDone v, Event.seqReceiveIT XferOptions.I2C_LAST_FRAME
                      HAL_StatusTypeDef.HAL_OK] ++ pre2) ∨
             ((env.Seq_Receive_IT k rlen XferOptions.I2C_LAST_FRAME
                  (platform_write_read_init env wbuf wlen w).2).1 = HAL_StatusTypeDef.HAL_OK ∧
                (platform_write_read env wbuf wlen rlen fuel w).1 = some 0 ∧
                (∃ v2, v2 ≠ 0 ∧ (platform_write_read env wbuf wlen rlen fuel w).2.trace =
                  w.trace ++ platform_write_read_head env wbuf wlen w ++ pre ++
                    [Event.pollTxDone v, Event.seqReceiveIT XferOptions.I2C_LAST_FRAME
                      HAL_StatusTypeDef.HAL_OK] ++ pre2 ++ [Event.pollRxDone v2]) ∧
                (∃ j, w.clock + 1 < j ∧ Irq.MasterRxCplt ∈ env.irq j)) ∨
             ((env.Seq_Receive_IT k rlen XferOptions.I2C_LAST_FRAME
                  (platform_write_read_init env wbuf wlen w).2).1 = HAL_StatusTypeDef.HAL_OK ∧
                (platform_write_read env wbuf wlen rlen fuel w).1 = some 3 ∧
                (∃ t, deadline_expired t (platform_write_read_startTick env w) = true ∧
                  (platform_write_read env wbuf wlen rlen fuel w).2.trace =
                    w.trace ++ platform_write_read_head env wbuf wlen w ++ pre ++
                      [Event.pollTxDone v, Event.seqReceiveIT XferOptions.I2C_LAST_FRAME
                        HAL_StatusTypeDef.HAL_OK] ++ pre2 ++
                      [Event.pollRxDone 0, Event.getTick t]))))) := by
  have hst : (HAL_I2C_Master_Seq_Transmit_IT env wbuf wlen XferOptions.I2C_FIRST_FRAME
      (HAL_GetTick env (clear_i2cSequentialRxDone env
        (clear_i2cSequentialTxDone env w))).2).1 =
        (platform_write_read_init env wbuf wlen w).1 := by
    simp [platform_write_read_init]
  have hh : (HAL_I2C_Master_Seq_Transmit_IT env wbuf wlen XferOptions.I2C_FIRST_FRAME
      (HAL_GetTick env (clear_i2cSequentialRxDone env
        (clear_i2cSequentialTxDone env w))).2).2.hi2c =
        (platform_write_read_init env wbuf wlen w).2 := by
    simp [platform_write_read_init]
  have ht : (HAL_I2C_Master_Seq_Transmit_IT env wbuf wlen XferOptions.I2C_FIRST_FRAME
      (HAL_GetTick env (clear_i2cSequentialRxDone env
        (clear_i2cSequentialTxDone env w))).2).2.trace =
        w.trace ++ platform_write_read_head env wbuf wlen w := by
    simp [platform_write_read_init, platform_write_read_head, platform_write_read_startTick]
  have hT : (HAL_GetTick env (clear_i2cSequentialRxDone env
      (clear_i2cSequentialTxDone env w))).1 = platform_write_read_startTick env w := by
    simp [platform_write_read_startTick]
  have hck : (HAL_I2C_Master_Seq_Transmit_IT env wbuf wlen XferOptions.I2C_FIRST_FRAME
      (HAL_GetTick env (clear_i2cSequentialRxDone env
        (clear_i2cSequentialTxDone env w))).2).2.clock = w.clock + 4 := rfl
  have hentT := platform_write_read_entry_tx env wbuf wlen XferOptions.I2C_FIRST_FRAME w
  have hentR := platform_write_read_entry_rx env wbuf wlen XferOptions.I2C_FIRST_FRAME w
  unfold platform_write_read
  simp only [hst, hT]
  generalize (HAL_I2C_Master_Seq_Transmit_IT env wbuf wlen XferOptions.I2C_FIRST_FRAME
      (HAL_GetTick env (clear_i2cSequentialRxDone env
        (clear_i2cSequentialTxDone env w))).2).2 = ws at hh ht hck hentT hentR ⊢
  by_cases hok : (platform_write_read_init env wbuf wlen w).1 = HAL_StatusTypeDef.HAL_OK
  · simp only [hok, ne_eq, not_true_eq_false, if_false]
    rw [platform_write_read_tx_wait_eq]
    obtain ⟨h1, h2, pre, hpre, h3⟩ :=
      pollLoop_spec env Dir.tx (platform_write_read_startTick env w) fuel ws
    have hcc := pollLoop_completed_cause env Dir.tx (platform_write_read_startTick env w) fuel ws
    have hdc := pollLoop_done_cause env Dir.tx (platform_write_read_startTick env w) Dir.rx fuel ws
    rcases hpl : pollLoop env Dir.tx (platform_write_read_startTick env w) fuel ws
      with ⟨r, left, w1⟩
    rw [hpl] at h1 h2 h3 hcc hdc
    simp only at h1 h2 h3 hcc hdc
    rw [hh] at h1
    rw [ht] at h3
    rw [hck] at h2
    rcases h3 with ⟨ha, hb⟩ | ⟨ha, v, hv, hb⟩ | ⟨ha, t, htt, hb⟩
    · subst ha
      exact ⟨by simp only; omega, pre, hpre, Or.inr (Or.inl ⟨trivial, rfl, hb, h1⟩)⟩
    · subst ha
      simp only
      have htxc : ∃ j, w.clock < j ∧ Irq.MasterTxCplt ∈ env.irq j := by
        rcases hcc rfl with hc1 | ⟨j, hj, hj2⟩
        · exact hentT hc1
        · exact ⟨j, by omega, by simpa [irqOf] using hj2⟩
      have hrs : (HAL_I2C_Master_Seq_Receive_IT env rlen XferOptions.I2C_LAST_FRAME w1).1 =
          (env.Seq_Receive_IT w1.clock rlen XferOptions.I2C_LAST_FRAME
            (platform_write_read_init env wbuf wlen w).2).1 := by
        simp [h1]
      have hrh : (HAL_I2C_Master_Seq_Receive_IT env rlen XferOptions.I2C_LAST_FRAME w1).2.hi2c =
          (env.Seq_Receive_IT w1.clock rlen XferOptions.I2C_LAST_FRAME
            (platform_write_read_init env wbuf wlen w).2).2 := by
        simp [h1]
      have hrt : (HAL_I2C_Master_Seq_Receive_IT env rlen XferOptions.I2C_LAST_FRAME w1).2.trace =
          w.trace ++ platform_write_read_head env wbuf wlen w ++ pre ++
            [Event.pollTxDone v, Event.seqReceiveIT XferOptions.I2C_LAST_FRAME
              (env.Seq_Receive_IT w1.clock rlen XferOptions.I2C_LAST_FRAME
                (platform_write_read_init env wbuf wlen w).2).1] := by
        simp [h1, hb, pollEvent]
      by_cases hr : (env.Seq_Receive_IT w1.clock rlen XferOptions.I2C_LAST_FRAME
            (platform_write_read_init env wbuf wlen w).2).1 = HAL_StatusTypeDef.HAL_OK
      · simp only [hrs, hr, ne_eq, not_true_eq_false, if_false]
        obtain ⟨g1, g2, pre2, hpre2, g3⟩ := platform_write_read_rx_wait_spec env
          (platform_write_read_startTick env w) left
          (HAL_I2C_Master_Seq_Receive_IT env rlen XferOptions.I2C_LAST_FRAME w1).2
        rw [hrh] at g2
        rw [hrt, hr] at g3
        simp only [receive_clock] at g1
        refine ⟨by omega, pre, hpre, Or.inr (Or.inr (Or.inr ⟨trivial, v, w1.clock, pre2, hv,
          hpre2, htxc, g2, ?_⟩))⟩
        rcases g3 with ⟨ga, gb⟩ | ⟨ga, gb, gc⟩ | ⟨ga, gb⟩
        · exact Or.inr (Or.inl ⟨hr, ga, gb⟩)
        · refine Or.inr (Or.inr (Or.inl ⟨hr, ga, gb, ?_⟩))
          rcases gc with gc | ⟨j, hj, hj2⟩
          · rw [receive_done] at gc
            rcases interrupts_done_cause env Dir.rx _ gc with gd | gd
            · rcases hdc gd with ge | ⟨j, hj, hj2⟩
              · exact hentR ge
              · exact ⟨j, by omega, by simpa [irqOf] using hj2⟩
            · exact ⟨w1.clock, by omega, by simpa [irqOf] using gd⟩
          · simp only [receive_clock] at hj
            exact ⟨j, by omega, hj2⟩
        · exact Or.inr (Or.inr (Or.inr ⟨hr, ga, gb⟩))
      · simp only [hrs, hr, ne_eq, not_false_eq_true, if_true]
        refine ⟨by simp only [receive_clock]; omega, pre, hpre,
          Or.inr (Or.inr (Or.inr ⟨trivial, v, w1.clock, [], hv, ?_, htxc, hrh,
            Or.inl ⟨hr, rfl, hrt⟩⟩))⟩
        intro e he
        cases he
    · subst ha
      exact ⟨by simp only; omega, pre, hpre,
        Or.inr (Or.inr (Or.inl ⟨trivial, rfl, ⟨t, htt, by simpa [pollEvent] using hb⟩, h1⟩))⟩
  · simp only [hok, ne_eq, not_false_eq_true, if_true]
    refine ⟨by omega, [], ?_, Or.inl ⟨trivial, trivial, ht, hh⟩⟩
    intro e he
    cases he

/-! ## The static pool -/

theorem pool_three (pool : List memory_block) (hlen : pool.length = MEMORY_BLOCKS_NUM) :
    ∃ a b c, pool = [a, b, c] := by
  match pool, hlen with
  | [a, b, c], _ => exact ⟨a, b, c, rfl⟩

theorem alloc_lowest_clear (size : Nat) (pool : List memory_block)
    (hlen : pool.length = MEMORY_BLOCKS_NUM) (i : Nat) (b : memory_block)
    (hi : pool.get? i = some b) (hb : b.is_allocated = 0)
    (hlow : ∀ j b2, j < i → pool.get? j = some b2 → b2.is_allocated ≠ 0) :
    platform_alloc_mem size pool = (Ptr.block i, pool.set i { b with is_allocated := 1 }) := by
  obtain ⟨x, y, z, rfl⟩ := pool_three pool hlen
  rcases i with _ | _ | _ | i
  · simp at hi
    subst hi
    simp [platform_alloc_mem, platform_alloc_mem_loop, hb]
  · simp at hi
    subst hi
    have h0 := hlow 0 x (by omega) (by simp)
    simp [platform_alloc_mem, platform_alloc_mem_loop, hb, h0]
  · simp at hi
    subst hi
    have h0 := hlow 0 x (by omega) (by simp)
    have h1 := hlow 1 y (by omega) (by simp)
    simp [platform_alloc_mem, platform_alloc_mem_loop, hb, h0, h1]
  · simp at hi

theorem alloc_null_iff (size : Nat) (pool : List memory_block)
    (hlen : pool.length = MEMORY_BLOCKS_NUM) :
    ((platform_alloc_mem size pool).1 = Ptr.NULL ↔ ∀ b ∈ pool, b.is_allocated ≠ 0) ∧
    ((platform_alloc_mem size pool).1 = Ptr.NULL → (platform_alloc_mem size pool).2 = pool) := by
  obtain ⟨x, y, z, rfl⟩ := pool_three pool hlen
  by_cases hx : x.is_allocated = 0 <;> by_cases hy : y.is_allocated = 0 <;>
    by_cases hz : z.is_allocated = 0 <;>
    simp [platform_alloc_mem, platform_alloc_mem_loop, hx, hy, hz]

theorem alloc_from_free (s1 s2 s3 s4 : Nat) (pool : List memory_block)
    (hlen : pool.length = MEMORY_BLOCKS_NUM) (hfree : ∀ b ∈ pool, b.is_allocated = 0) :
    (platform_alloc_mem s1 pool).1 = Ptr.block 0 ∧
    (platform_alloc_mem s2 (platform_alloc_mem s1 pool).2).1 = Ptr.block 1 ∧
    (platform_alloc_mem s3 (platform_alloc_mem s2 (platform_alloc_mem s1 pool).2).2).1 =
      Ptr.block 2 ∧
    (platform_alloc_mem s4 (platform_alloc_mem s3 (platform_alloc_mem s2
      (platform_alloc_mem s1 pool).2).2).2).1 = Ptr.NULL := by
  obtain ⟨x, y, z, rfl⟩ := pool_three pool hlen
  have hx : x.is_allocated = 0 := hfree x (by simp)
  have hy : y.is_allocated = 0 := hfree y (by simp)
  have hz : z.is_allocated = 0 := hfree z (by simp)
  simp [platform_alloc_mem, platform_alloc_mem_loop, hx, hy, hz]

theorem free_then_alloc (size : Nat) (pool : List memory_block)
    (hlen : pool.length = MEMORY_BLOCKS_NUM) (hfull : ∀ b ∈ pool, b.is_allocated ≠ 0)
    (i : Nat) (hi : i < MEMORY_BLOCKS_NUM) :
    (platform_alloc_mem size (platform_free_mem (Ptr.block i) pool)).1 = Ptr.block i := by
  obtain ⟨x, y, z, rfl⟩ := pool_three pool hlen
  have hx : x.is_allocated ≠ 0 := hfull x (by simp)
  have hy : y.is_allocated ≠ 0 := hfull y (by simp)
  have hz : z.is_allocated ≠ 0 := hfull z (by simp)
  unfold MEMORY_BLOCKS_NUM at hi
  rcases i with _ | _ | _ | i
  · simp [platform_alloc_mem, platform_alloc_mem_loop, platform_free_mem, platform_free_mem_loop,
      MEMORY_BLOCKS_NUM]
  · simp [platform_alloc_mem, platform_alloc_mem_loop, platform_free_mem, platform_free_mem_loop,
      MEMORY_BLOCKS_NUM, hx]
  · simp [platform_alloc_mem, platform_alloc_mem_loop, platform_free_mem, platform_free_mem_loop,
      MEMORY_BLOCKS_NUM, hx, hy]
  · omega

/-! ## Claims -/

/-- C6: the recovery workaround of the deadline branch of `platform_write`, as
a function on the controller state (lock, stop flag, CR2, State, Mode), is
idempotent on every controller state; after one and after two invocations the
controller is READY with Mode NONE and the lock released, so the second
invocation finds the lock free; the same holds for the deadline branch acting
on the program state. -/
theorem C6_recovery_idempotent (s : I2C_HandleTypeDef) (w : World) :
    I2C_NACK_WORKAROUND (I2C_NACK_WORKAROUND s) = I2C_NACK_WORKAROUND s ∧
    (I2C_NACK_WORKAROUND s).State = HAL_I2C_StateTypeDef.HAL_I2C_STATE_READY ∧
    (I2C_NACK_WORKAROUND s).Mode = HAL_I2C_ModeTypeDef.HAL_I2C_MODE_NONE ∧
    (I2C_NACK_WORKAROUND s).Lock = HAL_LockTypeDef.HAL_UNLOCKED ∧
    (I2C_NACK_WORKAROUND (I2C_NACK_WORKAROUND s)).State =
      HAL_I2C_StateTypeDef.HAL_I2C_STATE_READY ∧
    (I2C_NACK_WORKAROUND (I2C_NACK_WORKAROUND s)).Mode =
      HAL_I2C_ModeTypeDef.HAL_I2C_MODE_NONE ∧
    (I2C_NACK_WORKAROUND (I2C_NACK_WORKAROUND s)).Lock = HAL_LockTypeDef.HAL_UNLOCKED ∧
    (nack_workaround (nack_workaround w)).hi2c = (nack_workaround w).hi2c := by
  refine ⟨rfl, rfl, rfl, rfl, rfl, rfl, rfl, rfl⟩

/-- C7: in the static pool build, for every pool of `MEMORY_BLOCKS_NUM` blocks,
`platform_alloc_mem` returns the lowest-indexed block whose `is_allocated` is
clear and sets that flag; it returns NULL exactly when every block is
allocated, and then changes nothing; from an all-free pool the first three
allocations return blocks 0, 1, 2 and the fourth returns NULL; freeing any
block of a full pool makes the next allocation return that block. -/
theorem C7_pool_allocator (pool : List memory_block) (hlen : pool.length = MEMORY_BLOCKS_NUM)
    (size s2 s3 s4 : Nat) :
    (∀ i b, pool.get? i = some b → b.is_allocated = 0 →
      (∀ j b2, j < i → pool.get? j = some b2 → b2.is_allocated ≠ 0) →
      platform_alloc_mem size pool = (Ptr.block i, pool.set i { b with is_allocated := 1 })) ∧
    ((platform_alloc_mem size pool).1 = Ptr.NULL ↔ ∀ b ∈ pool, b.is_allocated ≠ 0) ∧
    ((platform_alloc_mem size pool).1 = Ptr.NULL → (platform_alloc_mem size pool).2 = pool) ∧
    ((∀ b ∈ pool, b.is_allocated = 0) →
      (platform_alloc_mem size pool).1 = Ptr.block 0 ∧
      (platform_alloc_mem s2 (platform_alloc_mem size pool).2).1 = Ptr.block 1 ∧
      (platform_alloc_mem s3 (platform_alloc_mem s2 (platform_alloc_mem size pool).2).2).1 =
        Ptr.block 2 ∧
      (platform_alloc_mem s4 (platform_alloc_mem s3 (platform_alloc_mem s2
        (platform_alloc_mem size pool).2).2).2).1 = Ptr.NULL) ∧
    ((∀ b ∈ pool, b.is_allocated ≠ 0) → ∀ i, i < MEMORY_BLOCKS_NUM →
      (platform_alloc_mem size (platform_free_mem (Ptr.block i) pool)).1 = Ptr.block i) :=
  ⟨fun i b hi hb hlow => alloc_lowest_clear size pool hlen i b hi hb hlow,
   (alloc_null_iff size pool hlen).1, (alloc_null_iff size pool hlen).2,
   fun hfree => alloc_from_free size s2 s3 s4 pool hlen hfree,
   fun hfull i hi => free_then_alloc size pool hlen hfull i hi⟩

/-- C7 at a pool of three free blocks: the first allocation returns block 0 and
marks it. -/
theorem C7_pool_allocator_witness :
    (freePool [1] [2] [3]).length = MEMORY_BLOCKS_NUM ∧
    platform_alloc_mem 16 (freePool [1] [2] [3]) =
      (Ptr.block 0, (freePool [1] [2] [3]).set 0 { buf := [1], is_allocated := 1 }) :=
  ⟨rfl, (C7_pool_allocator (freePool [1] [2] [3]) rfl 16 16 16 16).1 0
    { buf := [1], is_allocated := 0 } rfl rfl (fun j _ hj _ => absurd hj (Nat.not_lt_zero j))⟩

/-- C10: the deadline test of the three loops is `(now - start) mod 2^32 > 1000`.
For every tick count `T0` at the start snapshot and every number `d < 2^32` of
ticks elapsed since, wrap-around included, the test holds exactly when
`d > 1000`; and in each of the three loops an iteration that reads the flag as
zero and the tick `d` ticks after the start returns exactly when `d > 1000`,
and otherwise goes on waiting. -/
theorem C10_deadline_arithmetic (env : Env) (w : World) (T0 d fuel : Nat) (rlen : Int)
    (hd : d < 4294967296) (htick : env.uwTick (w.clock + 1) = T0 + d) :
    (deadline_expired ((T0 + d) % 4294967296) (T0 % 4294967296) = true ↔ 1000 < d) ∧
    ((read_i2cSequentialTxDone env w).1 = 0 →
      platform_write_wait env (T0 % 4294967296) (fuel + 1) w =
        if 1000 < d then
          (some 0, nack_workaround (HAL_GetTick env (read_i2cSequentialTxDone env w).2).2)
        else
          platform_write_wait env (T0 % 4294967296) fuel
            (HAL_GetTick env (read_i2cSequentialTxDone env w).2).2) ∧
    ((read_i2cSequentialTxDone env w).1 = 0 →
      platform_write_read_tx_wait env rlen (T0 % 4294967296) (fuel + 1) w =
        if 1000 < d then
          (some HAL_StatusTypeDef.HAL_TIMEOUT.toInt,
            (HAL_GetTick env (read_i2cSequentialTxDone env w).2).2)
        else
          platform_write_read_tx_wait env rlen (T0 % 4294967296) fuel
            (HAL_GetTick env (read_i2cSequentialTxDone env w).2).2) ∧
    ((read_i2cSequentialRxDone env w).1 = 0 →
      platform_write_read_rx_wait env (T0 % 4294967296) (fuel + 1) w =
        if 1000 < d then
          (some HAL_StatusTypeDef.HAL_TIMEOUT.toInt,
            (HAL_GetTick env (read_i2cSequentialRxDone env w).2).2)
        else
          platform_write_read_rx_wait env (T0 % 4294967296) fuel
            (HAL_GetTick env (read_i2cSequentialRxDone env w).2).2) := by
  have key := deadline_expired_iff T0 d hd
  have hv1 : (HAL_GetTick env (read_i2cSequentialTxDone env w).2).1 = (T0 + d) % 4294967296 := by
    have := readDone_clock env Dir.tx w
    simp only [readDone] at this
    simp [this, htick]
  have hv2 : (HAL_GetTick env (read_i2cSequentialRxDone env w).2).1 = (T0 + d) % 4294967296 := by
    have := readDone_clock env Dir.rx w
    simp only [readDone] at this
    simp [this, htick]
  refine ⟨key, ?_, ?_, ?_⟩
  · intro h0
    simp only [platform_write_wait, h0, if_true, hv1]
    by_cases hdd : 1000 < d
    · simp [hdd, key.2 hdd]
    · have : deadline_expired ((T0 + d) % 4294967296) (T0 % 4294967296) = false := by
        rw [← Bool.not_eq_true, key]
        exact hdd
      simp [hdd, this]
  · intro h0
    simp only [platform_write_read_tx_wait, h0, if_true, hv1]
    by_cases hdd : 1000 < d
    · simp [hdd, key.2 hdd]
    · have : deadline_expired ((T0 + d) % 4294967296) (T0 % 4294967296) = false := by
        rw [← Bool.not_eq_true, key]
        exact hdd
      simp [hdd, this]
  · intro h0
    simp only [platform_write_read_rx_wait, h0, if_true, hv2]
    by_cases hdd : 1000 < d
    · simp [hdd, key.2 hdd]
    · have : deadline_expired ((T0 + d) % 4294967296) (T0 % 4294967296) = false := by
        rw [← Bool.not_eq_true, key]
        exact hdd
      simp [hdd, this]

theorem platform_write_returns (env : Env) (wbuf : List Nat) (wlen : Int) (w : World)
    (hinit : (platform_write_init env wbuf wlen w).1 = HAL_StatusTypeDef.HAL_OK) (K : Nat)
    (hKc : w.clock + 3 ≤ K)
    (hK : deadline_expired (env.uwTick K % 4294967296) (platform_write_startTick env w) = true)
    (hK1 : deadline_expired (env.uwTick (K + 1) % 4294967296)
      (platform_write_startTick env w) = true)
    (fuel : Nat) (hf : K ≤ fuel) :
    (platform_write env wbuf wlen fuel w).1 ≠ none := by
  have hst : (HAL_I2C_Master_Seq_Transmit_IT env wbuf wlen XferOptions.I2C_FIRST_AND_LAST_FRAME
      (HAL_GetTick env (clear_i2cSequentialTxDone env w)).2).1 = HAL_StatusTypeDef.HAL_OK := by
    rw [← hinit]
    simp [platform_write_init]
  have hT : (HAL_GetTick env (clear_i2cSequentialTxDone env w)).1 =
      platform_write_startTick env w := by
    simp [platform_write_startTick]
  have hret := pollLoop_returns env Dir.tx (platform_write_startTick env w) K hK hK1 fuel
    (HAL_I2C_Master_Seq_Transmit_IT env wbuf wlen XferOptions.I2C_FIRST_AND_LAST_FRAME
      (HAL_GetTick env (clear_i2cSequentialTxDone env w)).2).2
    (by simp only [transmit_clock, HAL_GetTick_clock, clearTx_clock]; omega)
    (by simp only [transmit_clock, HAL_GetTick_clock, clearTx_clock]; omega)
  unfold platform_write
  simp only [hst, hT, ne_eq, not_true_eq_false, if_false]
  rw [platform_write_wait_eq]
  rcases hpl : pollLoop env Dir.tx (platform_write_startTick env w) fuel
    (HAL_I2C_Master_Seq_Transmit_IT env wbuf wlen XferOptions.I2C_FIRST_AND_LAST_FRAME
      (HAL_GetTick env (clear_i2cSequentialTxDone env w)).2).2 with ⟨r, left, w1⟩
  rw [hpl] at hret
  cases r
  · exact absurd rfl hret
  · simp
  · simp

/-- C1: when the transmit initiation returns HAL_OK, `platform_write` returns 0
on every path on which it returns: either a poll saw the transmit-complete flag
set, or a poll saw more than 1000 ticks elapsed and the recovery workaround was
run on the controller state.  It does return, with 0, once the tick source
shows the deadline passed at two consecutive steps; and when no
transmit-complete notification ever arrives, every return is through the
workaround. -/
theorem C1_platform_write_masks_timeout (env : Env) (wbuf : List Nat) (wlen : Int) (w : World)
    (hinit : (platform_write_init env wbuf wlen w).1 = HAL_StatusTypeDef.HAL_OK) :
    (∀ fuel r, (platform_write env wbuf wlen fuel w).1 = some r →
      r = 0 ∧
      ((∃ pre v, v ≠ 0 ∧
          (platform_write env wbuf wlen fuel w).2.trace =
            w.trace ++ platform_write_head env wbuf wlen w ++ pre ++ [Event.pollTxDone v] ∧
          (platform_write env wbuf wlen fuel w).2.hi2c = (platform_write_init env wbuf wlen w).2) ∨
       (∃ pre t, deadline_expired t (platform_write_startTick env w) = true ∧
          (platform_write env wbuf wlen fuel w).2.trace =
            w.trace ++ platform_write_head env wbuf wlen w ++ pre ++
              [Event.pollTxDone 0, Event.getTick t] ++ workaroundEvents ∧
          (platform_write env wbuf wlen fuel w).2.hi2c =
            I2C_NACK_WORKAROUND (platform_write_init env wbuf wlen w).2))) ∧
    (∀ K, w.clock + 3 ≤ K →
      deadline_expired (env.uwTick K % 4294967296) (platform_write_startTick env w) = true →
      deadline_expired (env.uwTick (K + 1) % 4294967296) (platform_write_startTick env w) = true →
      ∀ fuel, K ≤ fuel → (platform_write env wbuf wlen fuel w).1 = some 0) ∧
    ((∀ k, Irq.MasterTxCplt ∉ env.irq k) →
      ∀ fuel r, (platform_write env wbuf wlen fuel w).1 = some r →
        r = 0 ∧
        (platform_write env wbuf wlen fuel w).2.hi2c =
          I2C_NACK_WORKAROUND (platform_write_init env wbuf wlen w).2) := by
  have main : ∀ fuel r, (platform_write env wbuf wlen fuel w).1 = some r →
      r = 0 ∧
      ((∃ pre v, v ≠ 0 ∧
          (platform_write env wbuf wlen fuel w).2.trace =
            w.trace ++ platform_write_head env wbuf wlen w ++ pre ++ [Event.pollTxDone v] ∧
          (platform_write env wbuf wlen fuel w).2.hi2c = (platform_write_init env wbuf wlen w).2 ∧
          ∃ k, w.clock < k ∧ Irq.MasterTxCplt ∈ env.irq k) ∨
       (∃ pre t, deadline_expired t (platform_write_startTick env w) = true ∧
          (platform_write env wbuf wlen fuel w).2.trace =
            w.trace ++ platform_write_head env wbuf wlen w ++ pre ++
              [Event.pollTxDone 0, Event.getTick t] ++ workaroundEvents ∧
          (platform_write env wbuf wlen fuel w).2.hi2c =
            I2C_NACK_WORKAROUND (platform_write_init env wbuf wlen w).2)) := by
    intro fuel r hr
    obtain ⟨_, pre, _, hcases⟩ := platform_write_spec env wbuf wlen fuel w
    rcases hcases with ⟨ha, _⟩ | ⟨_, hb, _⟩ | ⟨_, hb, ⟨v, hv, htr⟩, hh, hc⟩ | ⟨_, hb, ⟨t, ht, htr⟩, hh⟩
    · exact absurd hinit ha
    · rw [hb] at hr
      cases hr
    · rw [hb] at hr
      cases hr
      exact ⟨rfl, Or.inl ⟨pre, v, hv, htr, hh, hc⟩⟩
    · rw [hb] at hr
      cases hr
      exact ⟨rfl, Or.inr ⟨pre, t, ht, htr, hh⟩⟩
  refine ⟨?_, ?_, ?_⟩
  · intro fuel r hr
    rcases main fuel r hr with ⟨h0, ⟨pre, v, hv, htr, hh, _⟩ | h2⟩
    · exact ⟨h0, Or.inl ⟨pre, v, hv, htr, hh⟩⟩
    · exact ⟨h0, Or.inr h2⟩
  · intro K hKc hK hK1 fuel hf
    have hne := platform_write_returns env wbuf wlen w hinit K hKc hK hK1 fuel hf
    rcases hres : (platform_write env wbuf wlen fuel w).1 with _ | r
    · exact absurd hres hne
    · rw [(main fuel r hres).1]
  · intro hno fuel r hr
    rcases main fuel r hr with ⟨h0, ⟨_, _, _, _, _, k, _, hk⟩ | ⟨_, _, _, _, hh⟩⟩
    · exact absurd hk (hno k)
    · exact ⟨h0, hh⟩

/-- C1 on a bus that never completes, with a tick counter about to wrap: the
write is reported as successful. -/
theorem C1_platform_write_masks_timeout_witness :
    (platform_write_init (silentEnv 4294967000 600) [7] 1 bootWorld).1 =
      HAL_StatusTypeDef.HAL_OK ∧
    (platform_write (silentEnv 4294967000 600) [7] 1 4 bootWorld).1 = some 0 :=
  ⟨rfl, (C1_platform_write_masks_timeout (silentEnv 4294967000 600) [7] 1 bootWorld rfl).2.1 4
    (by decide) (by decide) (by decide) 4 (le_refl 4)⟩

/-- C10 at a start tick 1001 ticks before the counter wraps to zero: the poll
that reads tick 0 declares the deadline expired. -/
theorem C10_deadline_arithmetic_witness :
    (deadline_expired ((4294966295 + 1001) % 4294967296) (4294966295 % 4294967296) = true ↔
      1000 < 1001) :=
  (C10_deadline_arithmetic (silentEnv 4294966295 1001) bootWorld 4294966295 1001 0 8
    (by decide) rfl).1

/-! ## Events of idle loop iterations -/

theorem idle_isPoll (d : Dir) (startTick : Nat) (l : List Event) (h : IdleTrace d startTick l)
    (e : Event) (he : e ∈ l) : e.isPoll = true := by
  rcases h e he with h1 | ⟨t, h1, _⟩
  · subst h1
    cases d <;> rfl
  · subst h1
    rfl

theorem isPoll_not_receive (e : Event) (h : e.isPoll = true) : e.isReceive = false := by
  cases e <;> simp_all [Event.isPoll, Event.isReceive]

theorem isPoll_not_asyncOp (e : Event) (h : e.isPoll = true) : e.isAsyncOp = false := by
  cases e <;> simp_all [Event.isPoll, Event.isAsyncOp]

theorem isPoll_not_controllerWrite (e : Event) (h : e.isPoll = true) :
    e.isControllerWrite = false := by
  cases e <;> simp_all [Event.isPoll, Event.isControllerWrite]

theorem idle_pollTx_zero (d : Dir) (startTick : Nat) (l : List Event)
    (h : IdleTrace d startTick l) (v : Nat) (he : Event.pollTxDone v ∈ l) : v = 0 := by
  rcases h _ he with h1 | ⟨t, h1, _⟩
  · cases d <;> simp_all [pollEvent]
  · cases h1

theorem idle_pollRx_zero (d : Dir) (startTick : Nat) (l : List Event)
    (h : IdleTrace d startTick l) (v : Nat) (he : Event.pollRxDone v ∈ l) : v = 0 := by
  rcases h _ he with h1 | ⟨t, h1, _⟩
  · cases d <;> simp_all [pollEvent]
  · cases h1

theorem idle_tx_no_pollRx (startTick : Nat) (l : List Event)
    (h : IdleTrace Dir.tx startTick l) (v : Nat) : Event.pollRxDone v ∉ l := by
  intro he
  rcases h _ he with h1 | ⟨t, h1, _⟩
  · simp [pollEvent] at h1
  · cases h1

theorem idle_no_receive (d : Dir) (startTick : Nat) (l : List Event)
    (h : IdleTrace d startTick l) (opt : XferOptions) (st : HAL_StatusTypeDef) :
    Event.seqReceiveIT opt st ∉ l := by
  intro he
  have := idle_isPoll d startTick l h _ he
  simp [Event.isPoll] at this

theorem idle_countP_asyncOp (d : Dir) (startTick : Nat) (l : List Event)
    (h : IdleTrace d startTick l) : l.countP Event.isAsyncOp = 0 := by
  rw [List.countP_eq_zero]
  intro e he
  simp [isPoll_not_asyncOp e (idle_isPoll d startTick l h e he)]

theorem toInt_ne_zero (s : HAL_StatusTypeDef) (h : s ≠ HAL_StatusTypeDef.HAL_OK) :
    s.toInt ≠ 0 := by
  cases s <;> simp_all [HAL_StatusTypeDef.toInt]

/-- C4: an initiation failure is returned at once and unchanged.  (a) If the
transmit initiation of `platform_write` returns a status other than HAL_OK,
the call returns that status after exactly its three opening steps: no flag
poll, no further tick read, no workaround.  (b) The same for the transmit
initiation of `platform_write_read`, after its four opening steps: no poll, no
read phase.  (c) If the read initiation of `platform_write_read` returns a
status other than HAL_OK, that initiation is the last event of the call, the
receive flag is never polled, and the call returns that status.  The returned
value is nonzero in each case. -/
theorem C4_initiation_failure_propagated (env : Env) (wbuf : List Nat) (wlen rlen : Int)
    (w : World) (s : HAL_StatusTypeDef) (hs : s ≠ HAL_StatusTypeDef.HAL_OK) (fuel : Nat) :
    s.toInt ≠ 0 ∧
    ((platform_write_init env wbuf wlen w).1 = s →
      (platform_write env wbuf wlen fuel w).1 = some s.toInt ∧
      (platform_write env wbuf wlen fuel w).2.trace =
        w.trace ++ [Event.clearTxDone, Event.getTick (platform_write_startTick env w),
          Event.seqTransmitIT XferOptions.I2C_FIRST_AND_LAST_FRAME s] ∧
      (platform_write env wbuf wlen fuel w).2.hi2c = (platform_write_init env wbuf wlen w).2) ∧
    ((platform_write_read_init env wbuf wlen w).1 = s →
      (platform_write_read env wbuf wlen rlen fuel w).1 = some s.toInt ∧
      (platform_write_read env wbuf wlen rlen fuel w).2.trace =
        w.trace ++ [Event.clearTxDone, Event.clearRxDone,
          Event.getTick (platform_write_read_startTick env w),
          Event.seqTransmitIT XferOptions.I2C_FIRST_FRAME s] ∧
      (platform_write_read env wbuf wlen rlen fuel w).2.hi2c =
        (platform_write_read_init env wbuf wlen w).2) ∧
    (∀ l opt, (platform_write_read env wbuf wlen rlen fuel w).2.trace = w.trace ++ l →
      Event.seqReceiveIT opt s ∈ l →
      (platform_write_read env wbuf wlen rlen fuel w).1 = some s.toInt ∧
      l.getLast? = some (Event.seqReceiveIT opt s) ∧
      ∀ v, Event.pollRxDone v ∉ l) := by
  refine ⟨toInt_ne_zero s hs, ?_, ?_, ?_⟩
  · intro hinit
    obtain ⟨_, pre, _, hcases⟩ := platform_write_spec env wbuf wlen fuel w
    rw [hinit] at hcases
    rcases hcases with ⟨_, hb, hc, hd⟩ | ⟨ha, _⟩ | ⟨ha, _⟩ | ⟨ha, _⟩
    · refine ⟨hb, ?_, hd⟩
      rw [hc]
      simp [platform_write_head, hinit]
    · exact absurd ha hs
    · exact absurd ha hs
    · exact absurd ha hs
  · intro hinit
    obtain ⟨_, pre, _, hcases⟩ := platform_write_read_spec env wbuf wlen rlen fuel w
    rw [hinit] at hcases
    rcases hcases with ⟨_, hb, hc, hd⟩ | ⟨ha, _⟩ | ⟨ha, _⟩ | ⟨ha, _⟩
    · refine ⟨hb, ?_, hd⟩
      rw [hc]
      simp [platform_write_read_head, hinit]
    · exact absurd ha hs
    · exact absurd ha hs
    · exact absurd ha hs
  · intro l opt hl hmem
    obtain ⟨_, pre, hpre, hcases⟩ := platform_write_read_spec env wbuf wlen rlen fuel w
    have hnp := idle_no_receive Dir.tx _ pre hpre opt s
    have hnr := idle_tx_no_pollRx _ pre hpre
    rcases hcases with ⟨_, _, hc, _⟩ | ⟨_, _, hc, _⟩ | ⟨_, _, ⟨t, _, hc⟩, _⟩ |
      ⟨_, v, k, pre2, _, hpre2, _, _, hsub⟩
    · rw [hl, List.append_right_inj] at hc
      subst hc
      simp [platform_write_read_head] at hmem
    · rw [hl, List.append_assoc, List.append_right_inj] at hc
      subst hc
      simp [platform_write_read_head, hnp] at hmem
    · rw [hl, List.append_assoc, List.append_assoc, List.append_right_inj] at hc
      subst hc
      simp [platform_write_read_head, hnp] at hmem
    · have hnp2 := idle_no_receive Dir.rx _ pre2 hpre2 opt s
      rcases hsub with ⟨_, hr, hc⟩ | ⟨hok, _, hc⟩ | ⟨hok, _, ⟨v2, _, hc⟩, _⟩ | ⟨hok, _, ⟨t, _, hc⟩⟩
      · rw [hl, List.append_assoc, List.append_assoc, List.append_right_inj] at hc
        subst hc
        simp only [platform_write_read_head, List.mem_append, List.mem_cons, List.mem_singleton,
          List.not_mem_nil, or_false, false_or, hnp, reduceCtorEq, Event.seqReceiveIT.injEq]
          at hmem
        obtain ⟨rfl, hs2⟩ := hmem
        rw [← hs2] at hr ⊢
        refine ⟨hr, ?_, ?_⟩
        · have hsplit : platform_write_read_head env wbuf wlen w ++ (pre ++
              [Event.pollTxDone v, Event.seqReceiveIT XferOptions.I2C_LAST_FRAME s]) =
              (platform_write_read_head env wbuf wlen w ++ pre ++ [Event.pollTxDone v]) ++
                [Event.seqReceiveIT XferOptions.I2C_LAST_FRAME s] := by
            simp
          rw [hsplit, List.getLast?_concat]
        · intro v2
          simp [platform_write_read_head, hnr]
      · rw [hl, List.append_assoc, List.append_assoc, List.append_assoc,
          List.append_right_inj] at hc
        subst hc
        simp only [platform_write_read_head, List.mem_append, List.mem_cons, List.mem_singleton,
          List.not_mem_nil, or_false, false_or, hnp, hnp2, reduceCtorEq,
          Event.seqReceiveIT.injEq] at hmem
        exact absurd hmem.2 hs
      · rw [hl, List.append_assoc, List.append_assoc, List.append_assoc, List.append_assoc,
          List.append_right_inj] at hc
        subst hc
        simp only [platform_write_read_head, List.mem_append, List.mem_cons, List.mem_singleton,
          List.not_mem_nil, or_false, false_or, hnp, hnp2, reduceCtorEq,
          Event.seqReceiveIT.injEq] at hmem
        exact absurd hmem.2 hs
      · rw [hl, List.append_assoc, List.append_assoc, List.append_assoc, List.append_assoc,
          List.append_right_inj] at hc
        subst hc
        simp only [platform_write_read_head, List.mem_append, List.mem_cons, List.mem_singleton,
          List.not_mem_nil, or_false, false_or, hnp, hnp2, reduceCtorEq,
          Event.seqReceiveIT.injEq] at hmem
        exact absurd hmem.2 hs

/-! ## The shape of a run of platform_write_read -/

theorem polls_countP_receive (q : List Event) (h : ∀ e ∈ q, e.isPoll = true) :
    q.countP Event.isReceive = 0 := by
  rw [List.countP_eq_zero]
  intro e he
  simp [isPoll_not_receive e (h e he)]

theorem polls_countP_asyncOp (q : List Event) (h : ∀ e ∈ q, e.isPoll = true) :
    q.countP Event.isAsyncOp = 0 := by
  rw [List.countP_eq_zero]
  intro e he
  simp [isPoll_not_asyncOp e (h e he)]

theorem polls_no_receive (q : List Event) (h : ∀ e ∈ q, e.isPoll = true) (opt : XferOptions)
    (st : HAL_StatusTypeDef) : Event.seqReceiveIT opt st ∉ q := by
  intro he
  have := h _ he
  simp [Event.isPoll] at this

theorem platform_write_read_shape (env : Env) (wbuf : List Nat) (wlen rlen : Int) (fuel : Nat)
    (w : World) :
    ∃ l, (platform_write_read env wbuf wlen rlen fuel w).2.trace = w.trace ++ l ∧
      ((∃ q, l = platform_write_read_head env wbuf wlen w ++ q ∧
          (∀ e ∈ q, e.isPoll = true) ∧ (∀ v, Event.pollTxDone v ∈ q → v = 0) ∧
          ((platform_write_read_init env wbuf wlen w).1 ≠ HAL_StatusTypeDef.HAL_OK → q = [])) ∨
       ((platform_write_read_init env wbuf wlen w).1 = HAL_StatusTypeDef.HAL_OK ∧
          ∃ q v s2 q2, v ≠ 0 ∧
            l = platform_write_read_head env wbuf wlen w ++ q ++
              [Event.pollTxDone v, Event.seqReceiveIT XferOptions.I2C_LAST_FRAME s2] ++ q2 ∧
            (∀ e ∈ q, e.isPoll = true) ∧ (∀ e ∈ q2, e.isPoll = true))) := by
  obtain ⟨_, pre, hpre, hcases⟩ := platform_write_read_spec env wbuf wlen rlen fuel w
  have hp := idle_isPoll Dir.tx _ pre hpre
  have hz := idle_pollTx_zero Dir.tx _ pre hpre
  rcases hcases with ⟨hne, _, hc, _⟩ | ⟨hok, _, hc, _⟩ | ⟨hok, _, ⟨t, _, hc⟩, _⟩ |
    ⟨hok, v, k, pre2, hv, hpre2, _, _, hsub⟩
  · exact ⟨_, by rw [hc], Or.inl ⟨[], by simp, by simp, by simp, fun _ => rfl⟩⟩
  · refine ⟨_, by rw [hc, List.append_assoc], Or.inl ⟨pre, rfl, hp, hz, fun h => absurd hok h⟩⟩
  · refine ⟨_, by rw [hc, List.append_assoc, List.append_assoc],
      Or.inl ⟨pre ++ [Event.pollTxDone 0, Event.getTick t], rfl, ?_, ?_, fun h => absurd hok h⟩⟩
    · intro e he
      simp only [List.mem_append, List.mem_cons, List.mem_singleton, List.not_mem_nil,
        or_false] at he
      rcases he with he | rfl | rfl
      · exact hp e he
      · rfl
      · rfl
    · intro v0 he
      simp only [List.mem_append, List.mem_cons, List.mem_singleton, List.not_mem_nil,
        or_false, Event.pollTxDone.injEq, reduceCtorEq] at he
      rcases he with he | he
      · exact hz v0 he
      · exact he
  · have hp2 := idle_isPoll Dir.rx _ pre2 hpre2
    rcases hsub with ⟨_, _, hc⟩ | ⟨_, _, hc⟩ | ⟨_, _, ⟨v2, _, hc⟩, _⟩ | ⟨_, _, ⟨t, _, hc⟩⟩
    · refine ⟨_, by rw [hc, List.append_assoc, List.append_assoc],
        Or.inr ⟨hok, pre, v, (env.Seq_Receive_IT k rlen XferOptions.I2C_LAST_FRAME
          (platform_write_read_init env wbuf wlen w).2).1, [], hv, by simp, hp, by simp⟩⟩
    · refine ⟨_, by rw [hc, List.append_assoc, List.append_assoc, List.append_assoc],
        Or.inr ⟨hok, pre, v, HAL_StatusTypeDef.HAL_OK, pre2, hv, by simp, hp, hp2⟩⟩
    · refine ⟨_, by rw [hc, List.append_assoc, List.append_assoc, List.append_assoc,
          List.append_assoc],
        Or.inr ⟨hok, pre, v, HAL_StatusTypeDef.HAL_OK, pre2 ++ [Event.pollRxDone v2], hv, by simp, hp, ?_⟩⟩
      intro e he
      simp only [List.mem_append, List.mem_singleton] at he
      rcases he with he | rfl
      · exact hp2 e he
      · rfl
    · refine ⟨_, by rw [hc, List.append_assoc, List.append_assoc, List.append_assoc,
          List.append_assoc],
        Or.inr ⟨hok, pre, v, HAL_StatusTypeDef.HAL_OK, pre2 ++ [Event.pollRxDone 0, Event.getTick t], hv, by simp, hp,
          ?_⟩⟩
      intro e he
      simp only [List.mem_append, List.mem_cons, List.mem_singleton, List.not_mem_nil,
        or_false] at he
      rcases he with he | rfl | rfl
      · exact hp2 e he
      · rfl
      · rfl

theorem polls_not_controllerWrite (q : List Event) (h : ∀ e ∈ q, e.isPoll = true) :
    ∀ e ∈ q, e.isControllerWrite = false :=
  fun e he => isPoll_not_controllerWrite e (h e he)

/-- C8: in every execution of `platform_write_read`, returned or still waiting,
the read phase is issued at most once, with I2C_LAST_FRAME, and right after a
poll that saw the transmit-complete flag set, the transmit phase having been
issued before with I2C_FIRST_FRAME and returned HAL_OK; no read phase is issued
when the transmit initiation fails or when no poll saw the transmit-complete
flag set.  Every execution of `platform_write` issues exactly one asynchronous
operation, a transmit with I2C_FIRST_AND_LAST_FRAME. -/
theorem C8_one_operation_in_flight (env : Env) (wbuf : List Nat) (wlen rlen : Int) (fuel : Nat)
    (w : World) :
    (∃ l, (platform_write_read env wbuf wlen rlen fuel w).2.trace = w.trace ++ l ∧
      l.countP Event.isReceive ≤ 1 ∧
      (∀ opt st, Event.seqReceiveIT opt st ∈ l →
        opt = XferOptions.I2C_LAST_FRAME ∧
        ∃ l1 v l2, v ≠ 0 ∧
          l = l1 ++ [Event.pollTxDone v, Event.seqReceiveIT XferOptions.I2C_LAST_FRAME st] ++ l2 ∧
          Event.seqTransmitIT XferOptions.I2C_FIRST_FRAME HAL_StatusTypeDef.HAL_OK ∈ l1 ∧
          l1.countP Event.isAsyncOp = 1) ∧
      ((platform_write_read_init env wbuf wlen w).1 ≠ HAL_StatusTypeDef.HAL_OK →
        l.countP Event.isReceive = 0) ∧
      ((∀ v, Event.pollTxDone v ∈ l → v = 0) → l.countP Event.isReceive = 0)) ∧
    (∃ l, (platform_write env wbuf wlen fuel w).2.trace = w.trace ++ l ∧
      l.countP Event.isAsyncOp = 1 ∧
      Event.seqTransmitIT XferOptions.I2C_FIRST_AND_LAST_FRAME
        (platform_write_init env wbuf wlen w).1 ∈ l) := by
  constructor
  · obtain ⟨l, hl, hshape⟩ := platform_write_read_shape env wbuf wlen rlen fuel w
    refine ⟨l, hl, ?_⟩
    rcases hshape with ⟨q, rfl, hq, hz, _⟩ | ⟨hok, q, v, s2, q2, hv, rfl, hq, hq2⟩
    · have hc : (platform_write_read_head env wbuf wlen w ++ q).countP Event.isReceive = 0 := by
        simp [List.countP_append, polls_countP_receive q hq, platform_write_read_head,
          List.countP_cons, Event.isReceive]
      refine ⟨by omega, ?_, fun _ => hc, fun _ => hc⟩
      intro opt st hmem
      have := polls_no_receive q hq opt st
      simp [platform_write_read_head, this] at hmem
    · have hc : (platform_write_read_head env wbuf wlen w ++ q ++
          [Event.pollTxDone v, Event.seqReceiveIT XferOptions.I2C_LAST_FRAME s2] ++
            q2).countP Event.isReceive = 1 := by
        simp [List.countP_append, polls_countP_receive q hq, polls_countP_receive q2 hq2,
          platform_write_read_head, List.countP_cons, Event.isReceive]
      refine ⟨by omega, ?_, fun h => absurd hok h, ?_⟩
      · intro opt st hmem
        have h1 := polls_no_receive q hq opt st
        have h2 := polls_no_receive q2 hq2 opt st
        simp only [platform_write_read_head, List.mem_append, List.mem_cons, List.mem_singleton,
          List.not_mem_nil, or_false, false_or, h1, h2, reduceCtorEq, Event.seqReceiveIT.injEq]
          at hmem
        obtain ⟨rfl, rfl⟩ := hmem
        refine ⟨rfl, platform_write_read_head env wbuf wlen w ++ q, v, q2, hv, rfl, ?_, ?_⟩
        · simp [platform_write_read_head, hok]
        · simp [List.countP_append, polls_countP_asyncOp q hq, platform_write_read_head,
            List.countP_cons, Event.isAsyncOp]
      · intro hall
        exact absurd (hall v (by simp)) hv
  · obtain ⟨_, pre, hpre, hcases⟩ := platform_write_spec env wbuf wlen fuel w
    have hp := idle_countP_asyncOp Dir.tx _ pre hpre
    rcases hcases with ⟨_, _, hc, _⟩ | ⟨_, _, hc, _⟩ | ⟨_, _, ⟨v, _, hc⟩, _⟩ |
      ⟨_, _, ⟨t, _, hc⟩, _⟩
    · exact ⟨_, hc, by simp [platform_write_head, List.countP_cons, Event.isAsyncOp],
        by simp [platform_write_head]⟩
    · refine ⟨_, by rw [hc, List.append_assoc], ?_, by simp [platform_write_head]⟩
      simp [List.countP_append, hp, platform_write_head, List.countP_cons, Event.isAsyncOp]
    · refine ⟨_, by rw [hc, List.append_assoc, List.append_assoc], ?_,
        by simp [platform_write_head]⟩
      simp [List.countP_append, hp, platform_write_head, List.countP_cons, Event.isAsyncOp]
    · refine ⟨_, by rw [hc, List.append_assoc, List.append_assoc, List.append_assoc], ?_,
        by simp [platform_write_head]⟩
      simp [List.countP_append, hp, platform_write_head, List.countP_cons, Event.isAsyncOp,
        workaroundEvents]

/-- C9: the adapter writes the controller state (lock, stop flag, CR2, State,
Mode) only in the deadline branch of `platform_write`.  Every execution of
`platform_write_read` contains no such write and leaves the controller state as
the transmit initiation, or the read initiation after it, left it.  An
execution of `platform_write` whose initiation fails, or in which a poll saw
the transmit-complete flag set, or which is still waiting, contains no such
write and leaves the controller state as the initiation left it; an execution
that contains such a write is one that ended with a poll of the tick source
past the deadline followed by the workaround. -/
theorem C9_workaround_scope (env : Env) (wbuf : List Nat) (wlen rlen : Int) (fuel : Nat)
    (w : World) :
    (∃ l, (platform_write_read env wbuf wlen rlen fuel w).2.trace = w.trace ++ l ∧
      (∀ e ∈ l, e.isControllerWrite = false) ∧
      ((platform_write_read env wbuf wlen rlen fuel w).2.hi2c =
          (platform_write_read_init env wbuf wlen w).2 ∨
        ∃ k, (platform_write_read env wbuf wlen rlen fuel w).2.hi2c =
          (env.Seq_Receive_IT k rlen XferOptions.I2C_LAST_FRAME
            (platform_write_read_init env wbuf wlen w).2).2)) ∧
    (∃ l, (platform_write env wbuf wlen fuel w).2.trace = w.trace ++ l ∧
      (((platform_write_init env wbuf wlen w).1 ≠ HAL_StatusTypeDef.HAL_OK ∨
          (∃ v, v ≠ 0 ∧ Event.pollTxDone v ∈ l) ∨
          (platform_write env wbuf wlen fuel w).1 = none) →
        (∀ e ∈ l, e.isControllerWrite = false) ∧
        (platform_write env wbuf wlen fuel w).2.hi2c = (platform_write_init env wbuf wlen w).2) ∧
      ((∃ e ∈ l, e.isControllerWrite = true) →
        ∃ pre t, deadline_expired t (platform_write_startTick env w) = true ∧
          l = platform_write_head env wbuf wlen w ++ pre ++
            [Event.pollTxDone 0, Event.getTick t] ++ workaroundEvents ∧
          (∀ e ∈ platform_write_head env wbuf wlen w ++ pre ++
            [Event.pollTxDone 0, Event.getTick t], e.isControllerWrite = false) ∧
          (platform_write env wbuf wlen fuel w).2.hi2c =
            I2C_NACK_WORKAROUND (platform_write_init env wbuf wlen w).2)) := by
  constructor
  · obtain ⟨l, hl, hshape⟩ := platform_write_read_shape env wbuf wlen rlen fuel w
    refine ⟨l, hl, ?_, ?_⟩
    · rcases hshape with ⟨q, rfl, hq, _, _⟩ | ⟨_, q, v, s2, q2, _, rfl, hq, hq2⟩
      · intro e he
        simp only [platform_write_read_head, List.mem_append, List.mem_cons, List.mem_singleton,
          List.not_mem_nil, or_false] at he
        rcases he with (rfl | rfl | rfl | rfl) | he
        · rfl
        · rfl
        · rfl
        · rfl
        · exact polls_not_controllerWrite q hq e he
      · intro e he
        simp only [platform_write_read_head, List.mem_append, List.mem_cons, List.mem_singleton,
          List.not_mem_nil, or_false] at he
        rcases he with (((rfl | rfl | rfl | rfl) | he) | rfl | rfl) | he
        · rfl
        · rfl
        · rfl
        · rfl
        · exact polls_not_controllerWrite q hq e he
        · rfl
        · rfl
        · exact polls_not_controllerWrite q2 hq2 e he
    · obtain ⟨_, pre, _, hcases⟩ := platform_write_read_spec env wbuf wlen rlen fuel w
      rcases hcases with ⟨_, _, _, hh⟩ | ⟨_, _, _, hh⟩ | ⟨_, _, _, hh⟩ |
        ⟨_, v, k, pre2, _, _, _, hh, _⟩
      · exact Or.inl hh
      · exact Or.inl hh
      · exact Or.inl hh
      · exact Or.inr ⟨k, hh⟩
  · obtain ⟨_, pre, hpre, hcases⟩ := platform_write_spec env wbuf wlen fuel w
    have hp := polls_not_controllerWrite pre (idle_isPoll Dir.tx _ pre hpre)
    have hz := idle_pollTx_zero Dir.tx _ pre hpre
    have hhead : ∀ e ∈ platform_write_head env wbuf wlen w, e.isControllerWrite = false := by
      intro e he
      simp only [platform_write_head, List.mem_cons, List.mem_singleton, List.not_mem_nil,
        or_false] at he
      rcases he with rfl | rfl | rfl <;> rfl
    rcases hcases with ⟨_, _, hc, hh⟩ | ⟨_, _, hc, hh⟩ | ⟨_, _, ⟨v, _, hc⟩, hh, _⟩ |
      ⟨hok, hr, ⟨t, ht, hc⟩, hh⟩
    · refine ⟨_, hc, fun _ => ⟨hhead, hh⟩, ?_⟩
      rintro ⟨e, he, hw⟩
      rw [hhead e he] at hw
      cases hw
    · have hall : ∀ e ∈ platform_write_head env wbuf wlen w ++ pre,
          e.isControllerWrite = false := by
        intro e he
        rcases List.mem_append.1 he with he | he
        · exact hhead e he
        · exact hp e he
      refine ⟨_, by rw [hc, List.append_assoc], fun _ => ⟨hall, hh⟩, ?_⟩
      rintro ⟨e, he, hw⟩
      rw [hall e he] at hw
      cases hw
    · have hall : ∀ e ∈ platform_write_head env wbuf wlen w ++ (pre ++ [Event.pollTxDone v]),
          e.isControllerWrite = false := by
        intro e he
        simp only [List.mem_append, List.mem_singleton] at he
        rcases he with he | he | rfl
        · exact hhead e he
        · exact hp e he
        · rfl
      refine ⟨_, by rw [hc, List.append_assoc, List.append_assoc], fun _ => ⟨hall, hh⟩, ?_⟩
      rintro ⟨e, he, hw⟩
      rw [hall e he] at hw
      cases hw
    · have hall : ∀ e ∈ platform_write_head env wbuf wlen w ++ pre ++
            [Event.pollTxDone 0, Event.getTick t], e.isControllerWrite = false := by
        intro e he
        simp only [List.mem_append, List.mem_cons, List.mem_singleton, List.not_mem_nil,
          or_false] at he
        rcases he with (he | he) | rfl | rfl
        · exact hhead e he
        · exact hp e he
        · rfl
        · rfl
      refine ⟨platform_write_head env wbuf wlen w ++ pre ++
        [Event.pollTxDone 0, Event.getTick t] ++ workaroundEvents,
        by rw [hc]; simp, ?_,
        fun _ => ⟨pre, t, ht, rfl, hall, hh⟩⟩
      rintro (h1 | ⟨v, hv, hmem⟩ | h1)
      · exact absurd hok h1
      · exfalso
        simp only [platform_write_head, workaroundEvents, List.mem_append, List.mem_cons,
          List.mem_singleton, List.not_mem_nil, or_false, reduceCtorEq, false_or,
          Event.pollTxDone.injEq] at hmem
        rcases hmem with hmem | hmem
        · exact hv (hz v hmem)
        · exact hv hmem
      · rw [hr] at h1
        cases h1

/-! ## Termination of platform_write_read -/

theorem platform_write_read_rx_wait_returns (env : Env) (startTick : Nat) (K : Nat)
    (hwin : ∀ k, K ≤ k → k ≤ K + 3 →
      deadline_expired (env.uwTick k % 4294967296) startTick = true)
    (fuel : Nat) (w : World) (hw : w.clock ≤ K + 2) (hf : K + 3 < w.clock + 2 * fuel) :
    (platform_write_read_rx_wait env startTick fuel w).1 ≠ none := by
  induction fuel generalizing w with
  | zero => omega
  | succ n ih =>
    simp only [platform_write_read_rx_wait]
    by_cases hp : (read_i2cSequentialRxDone env w).1 = 0
    · simp only [hp, if_true]
      by_cases hx : deadline_expired (HAL_GetTick env (read_i2cSequentialRxDone env w).2).1
          startTick = true
      · rw [if_pos hx]
        simp
      · rw [if_neg hx]
        have hck : (read_i2cSequentialRxDone env w).2.clock = w.clock + 1 := rfl
        have hlt : w.clock + 1 < K := by
          by_contra hge
          apply hx
          rw [HAL_GetTick_value, hck]
          exact hwin _ (by omega) (by omega)
        apply ih
        · simp only [HAL_GetTick_clock, hck]
          omega
        · simp only [HAL_GetTick_clock, hck]
          omega
    · simp [hp]

theorem platform_write_read_tx_wait_returns (env : Env) (rlen : Int) (startTick : Nat) (K : Nat)
    (hwin : ∀ k, K ≤ k → k ≤ K + 3 →
      deadline_expired (env.uwTick k % 4294967296) startTick = true)
    (fuel : Nat) (w : World) (hw : w.clock ≤ K) (hf : K + 3 < w.clock + 2 * fuel) :
    (platform_write_read_tx_wait env rlen startTick fuel w).1 ≠ none := by
  induction fuel generalizing w with
  | zero => omega
  | succ n ih =>
    simp only [platform_write_read_tx_wait]
    have hck : (read_i2cSequentialTxDone env w).2.clock = w.clock + 1 := rfl
    by_cases hp : (read_i2cSequentialTxDone env w).1 = 0
    · simp only [hp, if_true]
      by_cases hx : deadline_expired (HAL_GetTick env (read_i2cSequentialTxDone env w).2).1
          startTick = true
      · rw [if_pos hx]
        simp
      · rw [if_neg hx]
        have hlt : w.clock + 1 < K := by
          by_contra hge
          apply hx
          rw [HAL_GetTick_value, hck]
          exact hwin _ (by omega) (by omega)
        apply ih
        · simp only [HAL_GetTick_clock, hck]
          omega
        · simp only [HAL_GetTick_clock, hck]
          omega
    · simp only [hp, if_false]
      split_ifs
      · simp
      · apply platform_write_read_rx_wait_returns env startTick K hwin
        · simp only [receive_clock, hck]
          omega
        · simp only [receive_clock, hck]
          omega

theorem platform_write_read_returns (env : Env) (wbuf : List Nat) (wlen rlen : Int) (w : World)
    (K : Nat) (hKc : w.clock + 4 ≤ K)
    (hwin : ∀ k, K ≤ k → k ≤ K + 3 →
      deadline_expired (env.uwTick k % 4294967296) (platform_write_read_startTick env w) = true)
    (fuel : Nat) (hf : K ≤ fuel) :
    (platform_write_read env wbuf wlen rlen fuel w).1 ≠ none := by
  have hT : (HAL_GetTick env (clear_i2cSequentialRxDone env
      (clear_i2cSequentialTxDone env w))).1 = platform_write_read_startTick env w := by
    simp [platform_write_read_startTick]
  unfold platform_write_read
  simp only [hT]
  split_ifs
  · simp
  · apply platform_write_read_tx_wait_returns env rlen _ K hwin
    · simp only [transmit_clock, HAL_GetTick_clock, clearRx_clock, clearTx_clock]
      omega
    · simp only [transmit_clock, HAL_GetTick_clock, clearRx_clock, clearTx_clock]
      omega

/-- C2: when both initiations return HAL_OK, `platform_write_read` returns 0
only after a poll saw the transmit-complete flag set and a later poll saw the
receive-complete flag set, each caused by a matching notification serviced
after the flag was cleared; every other return is HAL_TIMEOUT, which is
nonzero, after a tick read past the deadline.  The call does return once the
tick source shows the deadline passed at four consecutive steps; and when no
completion notification ever arrives it never returns 0 and then returns
HAL_TIMEOUT. -/
theorem C2_write_read_needs_both_completions (env : Env) (wbuf : List Nat) (wlen rlen : Int)
    (w : World)
    (hinit : (platform_write_read_init env wbuf wlen w).1 = HAL_StatusTypeDef.HAL_OK)
    (hrecv : ∀ k h, (env.Seq_Receive_IT k rlen XferOptions.I2C_LAST_FRAME h).1 =
      HAL_StatusTypeDef.HAL_OK) :
    HAL_StatusTypeDef.HAL_TIMEOUT.toInt ≠ 0 ∧
    (∀ fuel r, (platform_write_read env wbuf wlen rlen fuel w).1 = some r →
      (r = 0 ∧
        (∃ l1 v l2 v2, v ≠ 0 ∧ v2 ≠ 0 ∧
          (platform_write_read env wbuf wlen rlen fuel w).2.trace =
            w.trace ++ l1 ++ [Event.pollTxDone v] ++ l2 ++ [Event.pollRxDone v2]) ∧
        (∃ j, w.clock < j ∧ Irq.MasterTxCplt ∈ env.irq j) ∧
        (∃ j, w.clock + 1 < j ∧ Irq.MasterRxCplt ∈ env.irq j)) ∨
      (r = HAL_StatusTypeDef.HAL_TIMEOUT.toInt ∧
        ∃ l t, deadline_expired t (platform_write_read_startTick env w) = true ∧
          (platform_write_read env wbuf wlen rlen fuel w).2.trace =
            w.trace ++ l ++ [Event.getTick t])) ∧
    (∀ K, w.clock + 4 ≤ K →
      (∀ k, K ≤ k → k ≤ K + 3 → deadline_expired (env.uwTick k % 4294967296)
        (platform_write_read_startTick env w) = true) →
      ∀ fuel, K ≤ fuel →
        (platform_write_read env wbuf wlen rlen fuel w).1 = some 0 ∨
        (platform_write_read env wbuf wlen rlen fuel w).1 =
          some HAL_StatusTypeDef.HAL_TIMEOUT.toInt) ∧
    ((∀ k, env.irq k = []) →
      (∀ fuel, (platform_write_read env wbuf wlen rlen fuel w).1 ≠ some 0) ∧
      ∀ K, w.clock + 4 ≤ K →
        (∀ k, K ≤ k → k ≤ K + 3 → deadline_expired (env.uwTick k % 4294967296)
          (platform_write_read_startTick env w) = true) →
        ∀ fuel, K ≤ fuel →
          (platform_write_read env wbuf wlen rlen fuel w).1 =
            some HAL_StatusTypeDef.HAL_TIMEOUT.toInt) := by
  have main : ∀ fuel r, (platform_write_read env wbuf wlen rlen fuel w).1 = some r →
      (r = 0 ∧
        (∃ l1 v l2 v2, v ≠ 0 ∧ v2 ≠ 0 ∧
          (platform_write_read env wbuf wlen rlen fuel w).2.trace =
            w.trace ++ l1 ++ [Event.pollTxDone v] ++ l2 ++ [Event.pollRxDone v2]) ∧
        (∃ j, w.clock < j ∧ Irq.MasterTxCplt ∈ env.irq j) ∧
        (∃ j, w.clock + 1 < j ∧ Irq.MasterRxCplt ∈ env.irq j)) ∨
      (r = HAL_StatusTypeDef.HAL_TIMEOUT.toInt ∧
        ∃ l t, deadline_expired t (platform_write_read_startTick env w) = true ∧
          (platform_write_read env wbuf wlen rlen fuel w).2.trace =
            w.trace ++ l ++ [Event.getTick t]) := by
    intro fuel r hr
    obtain ⟨_, pre, _, hcases⟩ := platform_write_read_spec env wbuf wlen rlen fuel w
    rcases hcases with ⟨ha, _⟩ | ⟨_, hb, _⟩ | ⟨_, hb, ⟨t, ht, hc⟩, _⟩ |
      ⟨_, v, k, pre2, hv, _, htx, _, hsub⟩
    · exact absurd hinit ha
    · rw [hb] at hr
      cases hr
    · rw [hb] at hr
      cases hr
      refine Or.inr ⟨rfl, platform_write_read_head env wbuf wlen w ++ pre ++
        [Event.pollTxDone 0], t, ht, ?_⟩
      rw [hc]
      simp
    · rcases hsub with ⟨ha, _⟩ | ⟨_, hb, _⟩ | ⟨_, hb, ⟨v2, hv2, hc⟩, hrx⟩ | ⟨_, hb, ⟨t, ht, hc⟩⟩
      · exact absurd (hrecv k _) ha
      · rw [hb] at hr
        cases hr
      · rw [hb] at hr
        cases hr
        refine Or.inl ⟨rfl, ⟨platform_write_read_head env wbuf wlen w ++ pre, v,
          Event.seqReceiveIT XferOptions.I2C_LAST_FRAME HAL_StatusTypeDef.HAL_OK :: pre2, v2,
          hv, hv2, ?_⟩, htx, hrx⟩
        rw [hc]
        simp
      · rw [hb] at hr
        cases hr
        refine Or.inr ⟨rfl, platform_write_read_head env wbuf wlen w ++ pre ++
          [Event.pollTxDone v, Event.seqReceiveIT XferOptions.I2C_LAST_FRAME
            HAL_StatusTypeDef.HAL_OK] ++ pre2 ++ [Event.pollRxDone 0], t, ht, ?_⟩
        rw [hc]
        simp
  have term : ∀ K, w.clock + 4 ≤ K →
      (∀ k, K ≤ k → k ≤ K + 3 → deadline_expired (env.uwTick k % 4294967296)
        (platform_write_read_startTick env w) = true) →
      ∀ fuel, K ≤ fuel →
        (platform_write_read env wbuf wlen rlen fuel w).1 = some 0 ∨
        (platform_write_read env wbuf wlen rlen fuel w).1 =
          some HAL_StatusTypeDef.HAL_TIMEOUT.toInt := by
    intro K hKc hwin fuel hf
    have hne := platform_write_read_returns env wbuf wlen rlen w K hKc hwin fuel hf
    rcases hres : (platform_write_read env wbuf wlen rlen fuel w).1 with _ | r
    · exact absurd hres hne
    · rcases main fuel r hres with ⟨h0, _⟩ | ⟨h3, _⟩
      · exact Or.inl (by rw [h0])
      · exact Or.inr (by rw [h3])
  have never : (∀ k, env.irq k = []) →
      ∀ fuel, (platform_write_read env wbuf wlen rlen fuel w).1 ≠ some 0 := by
    intro hno fuel h0
    rcases main fuel 0 h0 with ⟨_, _, ⟨j, _, hj⟩, _⟩ | ⟨h3, _⟩
    · rw [hno j] at hj
      cases hj
    · cases h3
  refine ⟨by decide, main, term, fun hno => ⟨never hno, ?_⟩⟩
  intro K hKc hwin fuel hf
  rcases term K hKc hwin fuel hf with h | h
  · exact absurd h (never hno fuel)
  · exact h

/-- C2 on a bus that accepts both phases and never completes, with a tick
counter about to wrap: the call times out. -/
theorem C2_write_read_needs_both_completions_witness :
    (platform_write_read_init (silentEnv 4294967000 600) [7] 1 bootWorld).1 =
      HAL_StatusTypeDef.HAL_OK ∧
    (platform_write_read (silentEnv 4294967000 600) [7] 1 8 5 bootWorld).1 = some 3 :=
  ⟨rfl, ((C2_write_read_needs_both_completions (silentEnv 4294967000 600) [7] 1 8 bootWorld rfl
    (fun _ _ => rfl)).2.2.2 (fun _ => rfl)).2 5 (by decide)
    (by intro k h1 h2; interval_cases k <;> decide) 5 (le_refl 5)⟩

/-! ## Flag isolation, call by call -/

theorem platform_write_pollTx_isolated (env : Env) (wbuf : List Nat) (wlen : Int) (fuel : Nat)
    (w : World) (hno : ∀ k, w.clock ≤ k → Irq.MasterTxCplt ∉ env.irq k) (v : Nat)
    (hmem : Event.pollTxDone v ∈ (platform_write env wbuf wlen fuel w).2.trace) :
    Event.pollTxDone v ∈ w.trace ∨ v = 0 := by
  obtain ⟨_, pre, hpre, hcases⟩ := platform_write_spec env wbuf wlen fuel w
  have hz := idle_pollTx_zero Dir.tx _ pre hpre v
  rcases hcases with ⟨_, _, hc, _⟩ | ⟨_, _, hc, _⟩ | ⟨_, _, _, _, k, hk, hk2⟩ |
    ⟨_, _, ⟨t, _, hc⟩, _⟩
  · rw [hc] at hmem
    simp only [platform_write_head, List.mem_append, List.mem_cons, List.mem_singleton,
      List.not_mem_nil, or_false, reduceCtorEq, false_or] at hmem
    exact Or.inl hmem
  · rw [hc] at hmem
    simp only [platform_write_head, List.mem_append, List.mem_cons, List.mem_singleton,
      List.not_mem_nil, or_false, reduceCtorEq, false_or] at hmem
    rcases hmem with hmem | hmem
    · exact Or.inl hmem
    · exact Or.inr (hz hmem)
  · exact absurd hk2 (hno k (by omega))
  · rw [hc] at hmem
    simp only [platform_write_head, workaroundEvents, List.mem_append, List.mem_cons,
      List.mem_singleton, List.not_mem_nil, or_false, reduceCtorEq, false_or,
      Event.pollTxDone.injEq] at hmem
    rcases hmem with (hmem | hmem) | hmem
    · exact Or.inl hmem
    · exact Or.inr (hz hmem)
    · exact Or.inr hmem

theorem platform_write_no_pollRx (env : Env) (wbuf : List Nat) (wlen : Int) (fuel : Nat)
    (w : World) (v : Nat)
    (hmem : Event.pollRxDone v ∈ (platform_write env wbuf wlen fuel w).2.trace) :
    Event.pollRxDone v ∈ w.trace := by
  obtain ⟨_, pre, hpre, hcases⟩ := platform_write_spec env wbuf wlen fuel w
  have hz := idle_tx_no_pollRx _ pre hpre v
  rcases hcases with ⟨_, _, hc, _⟩ | ⟨_, _, hc, _⟩ | ⟨_, _, ⟨v1, _, hc⟩, _⟩ |
    ⟨_, _, ⟨t, _, hc⟩, _⟩ <;>
  · rw [hc] at hmem
    simpa [platform_write_head, workaroundEvents, hz] using hmem

theorem platform_write_read_pollTx_isolated (env : Env) (wbuf : List Nat) (wlen rlen : Int)
    (fuel : Nat) (w : World) (hno : ∀ k, w.clock ≤ k → Irq.MasterTxCplt ∉ env.irq k) (v : Nat)
    (hmem : Event.pollTxDone v ∈ (platform_write_read env wbuf wlen rlen fuel w).2.trace) :
    Event.pollTxDone v ∈ w.trace ∨ v = 0 := by
  obtain ⟨_, pre, hpre, hcases⟩ := platform_write_read_spec env wbuf wlen rlen fuel w
  have hz := idle_pollTx_zero Dir.tx _ pre hpre v
  rcases hcases with ⟨_, _, hc, _⟩ | ⟨_, _, hc, _⟩ | ⟨_, _, ⟨t, _, hc⟩, _⟩ |
    ⟨_, _, _, _, _, _, ⟨k, hk, hk2⟩, _⟩
  · rw [hc] at hmem
    simp only [platform_write_read_head, List.mem_append, List.mem_cons, List.mem_singleton,
      List.not_mem_nil, or_false, reduceCtorEq, false_or] at hmem
    exact Or.inl hmem
  · rw [hc] at hmem
    simp only [platform_write_read_head, List.mem_append, List.mem_cons, List.mem_singleton,
      List.not_mem_nil, or_false, reduceCtorEq, false_or] at hmem
    rcases hmem with hmem | hmem
    · exact Or.inl hmem
    · exact Or.inr (hz hmem)
  · rw [hc] at hmem
    simp only [platform_write_read_head, List.mem_append, List.mem_cons, List.mem_singleton,
      List.not_mem_nil, or_false, reduceCtorEq, false_or, Event.pollTxDone.injEq] at hmem
    rcases hmem with (hmem | hmem) | hmem
    · exact Or.inl hmem
    · exact Or.inr (hz hmem)
    · exact Or.inr hmem
  · exact absurd hk2 (hno k (by omega))

theorem platform_write_read_pollRx_isolated (env : Env) (wbuf : List Nat) (wlen rlen : Int)
    (fuel : Nat) (w : World) (hno : ∀ k, w.clock ≤ k → Irq.MasterRxCplt ∉ env.irq k) (v : Nat)
    (hmem : Event.pollRxDone v ∈ (platform_write_read env wbuf wlen rlen fuel w).2.trace) :
    Event.pollRxDone v ∈ w.trace ∨ v = 0 := by
  obtain ⟨_, pre, hpre, hcases⟩ := platform_write_read_spec env wbuf wlen rlen fuel w
  have hz := idle_tx_no_pollRx _ pre hpre v
  rcases hcases with ⟨_, _, hc, _⟩ | ⟨_, _, hc, _⟩ | ⟨_, _, ⟨t, _, hc⟩, _⟩ |
    ⟨_, v1, k, pre2, _, hpre2, _, _, hsub⟩
  · rw [hc] at hmem
    left
    simpa [platform_write_read_head] using hmem
  · rw [hc] at hmem
    left
    simpa [platform_write_read_head, hz] using hmem
  · rw [hc] at hmem
    left
    simpa [platform_write_read_head, hz] using hmem
  · have hz2 := idle_pollRx_zero Dir.rx _ pre2 hpre2 v
    rcases hsub with ⟨_, _, hc⟩ | ⟨_, _, hc⟩ | ⟨_, _, _, j, hj, hj2⟩ | ⟨_, _, ⟨t, _, hc⟩⟩
    · rw [hc] at hmem
      left
      simpa [platform_write_read_head, hz] using hmem
    · rw [hc] at hmem
      simp only [platform_write_read_head, List.mem_append, List.mem_cons, List.mem_singleton,
        List.not_mem_nil, or_false, reduceCtorEq, false_or, hz] at hmem
      rcases hmem with hmem | hmem
      · exact Or.inl hmem
      · exact Or.inr (hz2 hmem)
    · exact absurd hj2 (hno j (by omega))
    · rw [hc] at hmem
      simp only [platform_write_read_head, List.mem_append, List.mem_cons, List.mem_singleton,
        List.not_mem_nil, or_false, reduceCtorEq, false_or, hz, Event.pollRxDone.injEq] at hmem
      rcases hmem with (hmem | hmem) | hmem
      · exact Or.inl hmem
      · exact Or.inr (hz2 hmem)
      · exact Or.inr hmem

theorem runCall_clock (env : Env) (fuel : Nat) (w : World) (c : Call) :
    w.clock ≤ (runCall env fuel w c).2.clock := by
  cases c with
  | write wbuf wlen => exact (platform_write_spec env wbuf wlen fuel w).1
  | write_read wbuf wlen rlen => exact (platform_write_read_spec env wbuf wlen rlen fuel w).1

theorem runCalls_pollTx_isolated (env : Env) (fuel : Nat) (calls : List Call) (w : World)
    (hno : ∀ k, w.clock ≤ k → Irq.MasterTxCplt ∉ env.irq k) (v : Nat)
    (hmem : Event.pollTxDone v ∈ (runCalls env fuel calls w).trace) :
    Event.pollTxDone v ∈ w.trace ∨ v = 0 := by
  induction calls generalizing w with
  | nil => exact Or.inl hmem
  | cons c cs ih =>
    have hck := runCall_clock env fuel w c
    have hone : Event.pollTxDone v ∈ (runCall env fuel w c).2.trace →
        Event.pollTxDone v ∈ w.trace ∨ v = 0 := by
      intro h
      cases c with
      | write wbuf wlen => exact platform_write_pollTx_isolated env wbuf wlen fuel w hno v h
      | write_read wbuf wlen rlen =>
        exact platform_write_read_pollTx_isolated env wbuf wlen rlen fuel w hno v h
    simp only [runCalls] at hmem
    rcases hres : runCall env fuel w c with ⟨r, w1⟩
    rw [hres] at hmem hck hone
    cases r with
    | none => exact hone hmem
    | some r0 =>
      simp only at hmem hck hone
      rcases ih w1 (fun k hk => hno k (by omega)) hmem with h | h
      · exact hone h
      · exact Or.inr h

theorem runCalls_pollRx_isolated (env : Env) (fuel : Nat) (calls : List Call) (w : World)
    (hno : ∀ k, w.clock ≤ k → Irq.MasterRxCplt ∉ env.irq k) (v : Nat)
    (hmem : Event.pollRxDone v ∈ (runCalls env fuel calls w).trace) :
    Event.pollRxDone v ∈ w.trace ∨ v = 0 := by
  induction calls generalizing w with
  | nil => exact Or.inl hmem
  | cons c cs ih =>
    have hck := runCall_clock env fuel w c
    have hone : Event.pollRxDone v ∈ (runCall env fuel w c).2.trace →
        Event.pollRxDone v ∈ w.trace ∨ v = 0 := by
      intro h
      cases c with
      | write wbuf wlen => exact Or.inl (platform_write_no_pollRx env wbuf wlen fuel w v h)
      | write_read wbuf wlen rlen =>
        exact platform_write_read_pollRx_isolated env wbuf wlen rlen fuel w hno v h
    simp only [runCalls] at hmem
    rcases hres : runCall env fuel w c with ⟨r, w1⟩
    rw [hres] at hmem hck hone
    cases r with
    | none => exact hone hmem
    | some r0 =>
      simp only at hmem hck hone
      rcases ih w1 (fun k hk => hno k (by omega)) hmem with h | h
      · exact hone h
      · exact Or.inr h

/-- C5: flag isolation.  The transmit-complete callback changes only the
transmit-complete flag and the receive-complete callback only the
receive-complete flag.  Each call clears its flag or flags before it issues the
transfer.  For every sequence of calls issued one at a time: when the schedule
holds no transmit-complete notification, whatever receive-complete
notifications it holds, no poll of the transmit flag sees it set, so a
`platform_write` that returns does so through the deadline branch and a
`platform_write_read` that returns after a successful initiation returns
HAL_TIMEOUT; when the schedule holds no receive-complete notification, whatever
transmit-complete notifications it holds, no poll of the receive flag sees it
set and `platform_write_read` never returns 0. -/
theorem C5_flag_isolation (env : Env) (fuel : Nat) (calls : List Call) (w : World)
    (wbuf : List Nat) (wlen rlen : Int) :
    ((HAL_I2C_MasterTxCpltCallback w).i2cSequentialTxDone = 1 ∧
      (HAL_I2C_MasterTxCpltCallback w).i2cSequentialRxDone = w.i2cSequentialRxDone ∧
      (HAL_I2C_MasterTxCpltCallback w).hi2c = w.hi2c ∧
      (HAL_I2C_MasterTxCpltCallback w).clock = w.clock ∧
      (HAL_I2C_MasterTxCpltCallback w).trace = w.trace) ∧
    ((HAL_I2C_MasterRxCpltCallback w).i2cSequentialRxDone = 1 ∧
      (HAL_I2C_MasterRxCpltCallback w).i2cSequentialTxDone = w.i2cSequentialTxDone ∧
      (HAL_I2C_MasterRxCpltCallback w).hi2c = w.hi2c ∧
      (HAL_I2C_MasterRxCpltCallback w).clock = w.clock ∧
      (HAL_I2C_MasterRxCpltCallback w).trace = w.trace) ∧
    (∃ l, (platform_write env wbuf wlen fuel w).2.trace =
      w.trace ++ [Event.clearTxDone, Event.getTick (platform_write_startTick env w),
        Event.seqTransmitIT XferOptions.I2C_FIRST_AND_LAST_FRAME
          (platform_write_init env wbuf wlen w).1] ++ l) ∧
    (∃ l, (platform_write_read env wbuf wlen rlen fuel w).2.trace =
      w.trace ++ [Event.clearTxDone, Event.clearRxDone,
        Event.getTick (platform_write_read_startTick env w),
        Event.seqTransmitIT XferOptions.I2C_FIRST_FRAME
          (platform_write_read_init env wbuf wlen w).1] ++ l) ∧
    ((∀ k, w.clock ≤ k → Irq.MasterTxCplt ∉ env.irq k) →
      (∀ v, Event.pollTxDone v ∈ (runCalls env fuel calls w).trace →
        Event.pollTxDone v ∈ w.trace ∨ v = 0) ∧
      (∀ r, (platform_write env wbuf wlen fuel w).1 = some r →
        (platform_write_init env wbuf wlen w).1 = HAL_StatusTypeDef.HAL_OK →
        ∃ pre t, deadline_expired t (platform_write_startTick env w) = true ∧
          (platform_write env wbuf wlen fuel w).2.trace =
            w.trace ++ platform_write_head env wbuf wlen w ++ pre ++
              [Event.pollTxDone 0, Event.getTick t] ++ workaroundEvents) ∧
      (∀ r, (platform_write_read env wbuf wlen rlen fuel w).1 = some r →
        (platform_write_read_init env wbuf wlen w).1 = HAL_StatusTypeDef.HAL_OK →
        r = HAL_StatusTypeDef.HAL_TIMEOUT.toInt ∧
        ∃ pre t, deadline_expired t (platform_write_read_startTick env w) = true ∧
          (platform_write_read env wbuf wlen rlen fuel w).2.trace =
            w.trace ++ platform_write_read_head env wbuf wlen w ++ pre ++
              [Event.pollTxDone 0, Event.getTick t])) ∧
    ((∀ k, w.clock ≤ k → Irq.MasterRxCplt ∉ env.irq k) →
      (∀ v, Event.pollRxDone v ∈ (runCalls env fuel calls w).trace →
        Event.pollRxDone v ∈ w.trace ∨ v = 0) ∧
      (platform_write_read env wbuf wlen rlen fuel w).1 ≠ some 0) := by
  refine ⟨⟨rfl, rfl, rfl, rfl, rfl⟩, ⟨rfl, rfl, rfl, rfl, rfl⟩, ?_, ?_, ?_, ?_⟩
  · obtain ⟨_, pre, _, hcases⟩ := platform_write_spec env wbuf wlen fuel w
    rcases hcases with ⟨_, _, hc, _⟩ | ⟨_, _, hc, _⟩ | ⟨_, _, ⟨v, _, hc⟩, _⟩ |
      ⟨_, _, ⟨t, _, hc⟩, _⟩
    · exact ⟨[], by rw [hc]; simp [platform_write_head]⟩
    · exact ⟨pre, by rw [hc]; simp [platform_write_head]⟩
    · exact ⟨pre ++ [Event.pollTxDone v], by rw [hc]; simp [platform_write_head]⟩
    · exact ⟨pre ++ [Event.pollTxDone 0, Event.getTick t] ++ workaroundEvents,
        by rw [hc]; simp [platform_write_head]⟩
  · obtain ⟨l, hl, hshape⟩ := platform_write_read_shape env wbuf wlen rlen fuel w
    rcases hshape with ⟨q, rfl, _⟩ | ⟨_, q, v, s2, q2, _, rfl, _⟩
    · exact ⟨q, by rw [hl]; simp [platform_write_read_head]⟩
    · exact ⟨q ++ [Event.pollTxDone v, Event.seqReceiveIT XferOptions.I2C_LAST_FRAME s2] ++ q2,
        by rw [hl]; simp [platform_write_read_head]⟩
  · intro hno
    refine ⟨fun v hv => runCalls_pollTx_isolated env fuel calls w hno v hv, ?_, ?_⟩
    · intro r hr hinit
      obtain ⟨_, pre, _, hcases⟩ := platform_write_spec env wbuf wlen fuel w
      rcases hcases with ⟨ha, _⟩ | ⟨_, hb, _⟩ | ⟨_, _, _, _, k, hk, hk2⟩ |
        ⟨_, _, ⟨t, ht, hc⟩, _⟩
      · exact absurd hinit ha
      · rw [hb] at hr
        cases hr
      · exact absurd hk2 (hno k (by omega))
      · exact ⟨pre, t, ht, hc⟩
    · intro r hr hinit
      obtain ⟨_, pre, _, hcases⟩ := platform_write_read_spec env wbuf wlen rlen fuel w
      rcases hcases with ⟨ha, _⟩ | ⟨_, hb, _⟩ | ⟨_, hb, ⟨t, ht, hc⟩, _⟩ |
        ⟨_, _, _, _, _, _, ⟨k, hk, hk2⟩, _⟩
      · exact absurd hinit ha
      · rw [hb] at hr
        cases hr
      · rw [hb] at hr
        cases hr
        exact ⟨rfl, pre, t, ht, hc⟩
      · exact absurd hk2 (hno k (by omega))
  · intro hno
    refine ⟨fun v hv => runCalls_pollRx_isolated env fuel calls w hno v hv, ?_⟩
    intro h0
    obtain ⟨_, pre, _, hcases⟩ := platform_write_read_spec env wbuf wlen rlen fuel w
    rcases hcases with ⟨ha, hb, _⟩ | ⟨_, hb, _⟩ | ⟨_, hb, _⟩ | ⟨_, v, k, pre2, _, _, _, _, hsub⟩
    · rw [hb] at h0
      exact toInt_ne_zero _ ha (by simpa using h0)
    · rw [hb] at h0
      cases h0
    · rw [hb] at h0
      cases h0
    · rcases hsub with ⟨ha, hb, _⟩ | ⟨_, hb, _⟩ | ⟨_, _, _, j, hj, hj2⟩ | ⟨_, hb, _⟩
      · rw [hb] at h0
        exact toInt_ne_zero _ ha (by simpa using h0)
      · rw [hb] at h0
        cases h0
      · exact absurd hj2 (hno j (by omega))
      · rw [hb] at h0
        cases h0

/-- C5 with wrong-direction notifications and stale flags.  Both flags are set
on entry.  On a bus that delivers a receive-complete notification before every
step and no transmit-complete one, a write followed by a write-then-read polls
the transmit flag, never sees it set, and the write-then-read ends with
HAL_TIMEOUT.  On a bus that delivers a transmit-complete notification before
every step and no receive-complete one, the write-then-read sees the transmit
flag, issues the read phase, polls the receive flag, never sees it set and does
not return 0. -/
theorem C5_flag_isolation_witness :
    (staleWorld.i2cSequentialTxDone = 1 ∧ staleWorld.i2cSequentialRxDone = 1) ∧
    (Irq.MasterRxCplt ∈ rxStormEnv.irq 3 ∧
      Event.pollTxDone 0 ∈ (runCalls rxStormEnv 6
        [Call.write [7] 1, Call.write_read [7] 1 8] staleWorld).trace ∧
      Event.pollTxDone 1 ∉ (runCalls rxStormEnv 6
        [Call.write [7] 1, Call.write_read [7] 1 8] staleWorld).trace ∧
      (platform_write_read rxStormEnv [7] 1 8 6 staleWorld).1 =
        some HAL_StatusTypeDef.HAL_TIMEOUT.toInt) ∧
    (Irq.MasterTxCplt ∈ txStormEnv.irq 3 ∧
      Event.pollTxDone 1 ∈ (runCalls txStormEnv 6
        [Call.write [7] 1, Call.write_read [7] 1 8] staleWorld).trace ∧
      Event.pollRxDone 0 ∈ (runCalls txStormEnv 6
        [Call.write [7] 1, Call.write_read [7] 1 8] staleWorld).trace ∧
      Event.pollRxDone 1 ∉ (runCalls txStormEnv 6
        [Call.write [7] 1, Call.write_read [7] 1 8] staleWorld).trace ∧
      (platform_write_read txStormEnv [7] 1 8 6 staleWorld).1 ≠ some 0) :=
  ⟨⟨rfl, rfl⟩,
   ⟨by decide, by decide,
    fun h => ((C5_flag_isolation rxStormEnv 6 [Call.write [7] 1, Call.write_read [7] 1 8]
      staleWorld [7] 1 8).2.2.2.2.1
        (fun _ _ hk => by cases hk with | tail _ h0 => cases h0)).1 1 h |>.elim
          (fun h0 => by cases h0) (fun h1 => by cases h1),
    (((C5_flag_isolation rxStormEnv 6 [] staleWorld [7] 1 8).2.2.2.2.1
      (fun _ _ hk => by cases hk with | tail _ h0 => cases h0)).2.2 3 (by decide) rfl).1 ▸
        (by decide : (platform_write_read rxStormEnv [7] 1 8 6 staleWorld).1 = some 3)⟩,
   ⟨by decide, by decide, by decide,
    fun h => ((C5_flag_isolation txStormEnv 6 [Call.write [7] 1, Call.write_read [7] 1 8]
      staleWorld [7] 1 8).2.2.2.2.2
        (fun _ _ hk => by cases hk with | tail _ h0 => cases h0)).1 1 h |>.elim
          (fun h0 => by cases h0) (fun h1 => by cases h1),
    ((C5_flag_isolation txStormEnv 6 [] staleWorld [7] 1 8).2.2.2.2.2
      (fun _ _ hk => by cases hk with | tail _ h0 => cases h0)).2⟩⟩

/-! ## A serviced notification is seen by the next poll -/

theorem service_done_sticky (d : Dir) (i : Irq) (w : World) (h : w.done d ≠ 0) :
    (service w i).done d ≠ 0 := by
  cases d <;> cases i <;> simp_all [service, World.done, HAL_I2C_MasterTxCpltCallback,
    HAL_I2C_MasterRxCpltCallback]

theorem foldl_service_done_sticky (d : Dir) (l : List Irq) (w : World) (h : w.done d ≠ 0) :
    (l.foldl service w).done d ≠ 0 := by
  induction l generalizing w with
  | nil => exact h
  | cons i l ih => exact ih _ (service_done_sticky d i w h)

theorem foldl_service_done_set (d : Dir) (l : List Irq) (w : World) (h : irqOf d ∈ l) :
    (l.foldl service w).done d ≠ 0 := by
  induction l generalizing w with
  | nil => cases h
  | cons i l ih =>
    simp only [List.mem_cons] at h
    simp only [List.foldl]
    rcases h with h | h
    · apply foldl_service_done_sticky
      subst h
      cases d <;> simp [service, irqOf, World.done, HAL_I2C_MasterTxCpltCallback,
        HAL_I2C_MasterRxCpltCallback]
    · exact ih _ h

theorem interrupts_done_sticky (env : Env) (d : Dir) (w : World) (h : w.done d ≠ 0) :
    (interrupts env w).done d ≠ 0 := by
  have := foldl_service_done_sticky d (env.irq w.clock) w h
  cases d <;> simpa [interrupts, World.done] using this

theorem interrupts_done_set (env : Env) (d : Dir) (w : World) (h : irqOf d ∈ env.irq w.clock) :
    (interrupts env w).done d ≠ 0 := by
  have := foldl_service_done_set d (env.irq w.clock) w h
  cases d <;> simpa [interrupts, World.done] using this

/-- A wait completes when a matching notification is serviced at step `q`, the
loop is running then, and no tick read from step `c0` to step `q` is past the
deadline. -/
theorem pollLoop_completes (env : Env) (d : Dir) (startTick : Nat) (c0 q : Nat)
    (hq : irqOf d ∈ env.irq q)
    (hnot : ∀ k, c0 ≤ k → k ≤ q →
      deadline_expired (env.uwTick k % 4294967296) startTick = false)
    (fuel : Nat) (w : World) (hc0 : c0 ≤ w.clock)
    (hw : (w.clock ≤ q ∧ q + 2 ≤ w.clock + 2 * fuel) ∨ (w.done d ≠ 0 ∧ 0 < fuel)) :
    (pollLoop env d startTick fuel w).1 = PollResult.completed := by
  induction fuel generalizing w with
  | zero =>
    rcases hw with ⟨h1, h2⟩ | ⟨_, h2⟩
    · omega
    · omega
  | succ n ih =>
    simp only [pollLoop]
    by_cases hp : (readDone env d w).1 = 0
    · have hdone : w.done d = 0 := by
        by_contra hne
        exact interrupts_done_sticky env d w hne (by rw [← readDone_value]; exact hp)
      rcases hw with ⟨hw, hf⟩ | ⟨hw, _⟩
      · have hwq : w.clock < q := by
          rcases Nat.lt_or_ge w.clock q with h | h
          · exact h
          · exfalso
            have heq : w.clock = q := by omega
            rw [← heq] at hq
            exact interrupts_done_set env d w hq (by rw [← readDone_value]; exact hp)
        have hx : deadline_expired (HAL_GetTick env (readDone env d w).2).1 startTick
            = false := by
          rw [HAL_GetTick_value, readDone_clock]
          exact hnot _ (by omega) (by omega)
        simp only [hp, if_true, hx, Bool.false_eq_true, if_false]
        have hclock : (HAL_GetTick env (readDone env d w).2).2.clock = w.clock + 2 := by
          simp
        by_cases hlast : w.clock + 1 = q
        · have hset : (HAL_GetTick env (readDone env d w).2).2.done d ≠ 0 := by
            rw [HAL_GetTick_done]
            apply interrupts_done_set
            rw [readDone_clock, hlast]
            exact hq
          exact ih _ (by rw [hclock]; omega) (Or.inr ⟨hset, by omega⟩)
        · apply ih
          · rw [hclock]
            omega
          · left
            rw [hclock]
            omega
      · exact absurd hdone hw
    · simp [hp]

/-! ## The receive wait under a late notification -/

theorem platform_write_read_rx_wait_timeout_only (env : Env) (startTick : Nat) (K : Nat)
    (hwin : ∀ k, K ≤ k → k ≤ K + 3 →
      deadline_expired (env.uwTick k % 4294967296) startTick = true)
    (fuel : Nat) (w : World) (hw : w.clock ≤ K + 2) (hdone : w.done Dir.rx = 0)
    (hno : ∀ k, w.clock ≤ k → k ≤ K + 3 → Irq.MasterRxCplt ∉ env.irq k) :
    (platform_write_read_rx_wait env startTick fuel w).1 = none ∨
    (platform_write_read_rx_wait env startTick fuel w).1 = some 3 := by
  induction fuel generalizing w with
  | zero => exact Or.inl rfl
  | succ n ih =>
    have hck : (read_i2cSequentialRxDone env w).2.clock = w.clock + 1 := rfl
    have h1 : (interrupts env w).done Dir.rx = 0 := by
      rw [interrupts_done env Dir.rx w (hno _ (le_refl _) (by omega))]
      exact hdone
    have hp : (read_i2cSequentialRxDone env w).1 = 0 := h1
    simp only [platform_write_read_rx_wait, hp, if_true]
    by_cases hx : deadline_expired (HAL_GetTick env (read_i2cSequentialRxDone env w).2).1
        startTick = true
    · rw [if_pos hx]
      exact Or.inr rfl
    · rw [if_neg hx]
      have hlt : w.clock + 1 < K := by
        by_contra hge
        apply hx
        rw [HAL_GetTick_value, hck]
        exact hwin _ (by omega) (by omega)
      apply ih
      · simp only [HAL_GetTick_clock, hck]
        omega
      · rw [HAL_GetTick_done, interrupts_done env Dir.rx _ (by
          rw [hck]
          exact hno _ (by omega) (by omega))]
        exact h1
      · intro k hk hk2
        simp only [HAL_GetTick_clock, hck] at hk
        exact hno k (by omega) hk2

theorem platform_write_read_tx_wait_timeout_only (env : Env) (rlen : Int) (startTick : Nat)
    (K : Nat)
    (hwin : ∀ k, K ≤ k → k ≤ K + 3 →
      deadline_expired (env.uwTick k % 4294967296) startTick = true)
    (hrecv : ∀ k h, (env.Seq_Receive_IT k rlen XferOptions.I2C_LAST_FRAME h).1 =
      HAL_StatusTypeDef.HAL_OK)
    (fuel : Nat) (w : World) (hw : w.clock ≤ K) (hdone : w.done Dir.rx = 0)
    (hno : ∀ k, w.clock ≤ k → k ≤ K + 3 → Irq.MasterRxCplt ∉ env.irq k) :
    (platform_write_read_tx_wait env rlen startTick fuel w).1 = none ∨
    (platform_write_read_tx_wait env rlen startTick fuel w).1 = some 3 := by
  induction fuel generalizing w with
  | zero => exact Or.inl rfl
  | succ n ih =>
    have hck : (read_i2cSequentialTxDone env w).2.clock = w.clock + 1 := rfl
    have h1 : (read_i2cSequentialTxDone env w).2.done Dir.rx = 0 := by
      have := readDone_done env Dir.tx Dir.rx w
      simp only [readDone] at this
      rw [this, interrupts_done env Dir.rx w (hno _ (le_refl _) (by omega))]
      exact hdone
    simp only [platform_write_read_tx_wait]
    by_cases hp : (read_i2cSequentialTxDone env w).1 = 0
    · simp only [hp, if_true]
      by_cases hx : deadline_expired (HAL_GetTick env (read_i2cSequentialTxDone env w).2).1
          startTick = true
      · rw [if_pos hx]
        exact Or.inr rfl
      · rw [if_neg hx]
        have hlt : w.clock + 1 < K := by
          by_contra hge
          apply hx
          rw [HAL_GetTick_value, hck]
          exact hwin _ (by omega) (by omega)
        apply ih
        · simp only [HAL_GetTick_clock, hck]
          omega
        · rw [HAL_GetTick_done, interrupts_done env Dir.rx _ (by
            rw [hck]
            exact hno _ (by omega) (by omega))]
          exact h1
        · intro k hk hk2
          simp only [HAL_GetTick_clock, hck] at hk
          exact hno k (by omega) hk2
    · simp only [hp, if_false, receive_status, hrecv, ne_eq, not_true_eq_false]
      apply platform_write_read_rx_wait_timeout_only env startTick K hwin
      · simp only [receive_clock, hck]
        omega
      · rw [receive_done, interrupts_done env Dir.rx _ (by
          rw [hck]
          exact hno _ (by omega) (by omega))]
        exact h1
      · intro k hk hk2
        simp only [receive_clock, hck] at hk
        exact hno k (by omega) hk2

theorem platform_write_read_unfold (env : Env) (wbuf : List Nat) (wlen rlen : Int) (fuel : Nat)
    (w : World)
    (hinit : (platform_write_read_init env wbuf wlen w).1 = HAL_StatusTypeDef.HAL_OK) :
    platform_write_read env wbuf wlen rlen fuel w =
      platform_write_read_tx_wait env rlen (platform_write_read_startTick env w) fuel
        (platform_write_read_entry env wbuf wlen w) := by
  have hst : (HAL_I2C_Master_Seq_Transmit_IT env wbuf wlen XferOptions.I2C_FIRST_FRAME
      (HAL_GetTick env (clear_i2cSequentialRxDone env
        (clear_i2cSequentialTxDone env w))).2).1 = HAL_StatusTypeDef.HAL_OK := by
    rw [← hinit]
    simp [platform_write_read_init]
  have hT : (HAL_GetTick env (clear_i2cSequentialRxDone env
      (clear_i2cSequentialTxDone env w))).1 = platform_write_read_startTick env w := by
    simp [platform_write_read_startTick]
  unfold platform_write_read platform_write_read_entry
  simp only [hst, hT, ne_eq, not_true_eq_false, if_false]

theorem platform_write_read_entry_clock (env : Env) (wbuf : List Nat) (wlen : Int) (w : World) :
    (platform_write_read_entry env wbuf wlen w).clock = w.clock + 4 := rfl

theorem platform_write_read_entry_trace (env : Env) (wbuf : List Nat) (wlen : Int) (w : World) :
    (platform_write_read_entry env wbuf wlen w).trace =
      w.trace ++ platform_write_read_head env wbuf wlen w := by
  simp [platform_write_read_entry, platform_write_read_init, platform_write_read_head,
    platform_write_read_startTick]

theorem platform_write_read_entry_rx_zero (env : Env) (wbuf : List Nat) (wlen : Int) (w : World)
    (h2 : Irq.MasterRxCplt ∉ env.irq (w.clock + 2))
    (h3 : Irq.MasterRxCplt ∉ env.irq (w.clock + 3)) :
    (platform_write_read_entry env wbuf wlen w).done Dir.rx = 0 := by
  unfold platform_write_read_entry
  rw [transmit_done, interrupts_done env Dir.rx _ (by simpa [irqOf] using h3),
    HAL_GetTick_done, interrupts_done env Dir.rx _ (by simpa [irqOf] using h2)]
  rfl

/-- Once the first loop of `platform_write_read` has seen the transmit flag,
the read phase is among the events of the call. -/
theorem platform_write_read_of_completed (env : Env) (wbuf : List Nat) (wlen rlen : Int)
    (fuel : Nat) (w : World)
    (hinit : (platform_write_read_init env wbuf wlen w).1 = HAL_StatusTypeDef.HAL_OK)
    (hdone : (pollLoop env Dir.tx (platform_write_read_startTick env w) fuel
      (platform_write_read_entry env wbuf wlen w)).1 = PollResult.completed) :
    ∃ l st, (platform_write_read env wbuf wlen rlen fuel w).2.trace =
        w.trace ++ platform_write_read_head env wbuf wlen w ++ l ∧
      Event.seqReceiveIT XferOptions.I2C_LAST_FRAME st ∈ l := by
  rw [platform_write_read_unfold env wbuf wlen rlen fuel w hinit, platform_write_read_tx_wait_eq]
  obtain ⟨_, _, pre, _, h3⟩ := pollLoop_spec env Dir.tx (platform_write_read_startTick env w)
    fuel (platform_write_read_entry env wbuf wlen w)
  rcases hpl : pollLoop env Dir.tx (platform_write_read_startTick env w) fuel
    (platform_write_read_entry env wbuf wlen w) with ⟨r, left, w1⟩
  rw [hpl] at h3 hdone
  simp only at h3 hdone
  subst hdone
  rcases h3 with ⟨ha, _⟩ | ⟨_, v, _, hb⟩ | ⟨ha, _⟩
  · cases ha
  · rw [platform_write_read_entry_trace] at hb
    simp only
    have hmid : (HAL_I2C_Master_Seq_Receive_IT env rlen XferOptions.I2C_LAST_FRAME w1).2.trace =
        w.trace ++ platform_write_read_head env wbuf wlen w ++
          (pre ++ [pollEvent Dir.tx v] ++ [Event.seqReceiveIT XferOptions.I2C_LAST_FRAME
            (env.Seq_Receive_IT w1.clock rlen XferOptions.I2C_LAST_FRAME w1.hi2c).1]) := by
      simp [hb]
    split_ifs
    · exact ⟨pre ++ [pollEvent Dir.tx v] ++ [Event.seqReceiveIT XferOptions.I2C_LAST_FRAME
        (env.Seq_Receive_IT w1.clock rlen XferOptions.I2C_LAST_FRAME w1.hi2c).1],
        (env.Seq_Receive_IT w1.clock rlen XferOptions.I2C_LAST_FRAME w1.hi2c).1, hmid,
        by simp⟩
    · obtain ⟨_, _, pre2, _, g3⟩ := platform_write_read_rx_wait_spec env
        (platform_write_read_startTick env w) left
        (HAL_I2C_Master_Seq_Receive_IT env rlen XferOptions.I2C_LAST_FRAME w1).2
      rw [hmid] at g3
      rcases g3 with ⟨_, gb⟩ | ⟨_, ⟨v2, _, gb⟩, _⟩ | ⟨_, t, _, gb⟩
      · exact ⟨(pre ++ [pollEvent Dir.tx v] ++ [Event.seqReceiveIT XferOptions.I2C_LAST_FRAME
          (env.Seq_Receive_IT w1.clock rlen XferOptions.I2C_LAST_FRAME w1.hi2c).1]) ++ pre2,
          (env.Seq_Receive_IT w1.clock rlen XferOptions.I2C_LAST_FRAME w1.hi2c).1,
          by rw [gb, List.append_assoc], by simp⟩
      · exact ⟨(pre ++ [pollEvent Dir.tx v] ++ [Event.seqReceiveIT XferOptions.I2C_LAST_FRAME
          (env.Seq_Receive_IT w1.clock rlen XferOptions.I2C_LAST_FRAME w1.hi2c).1]) ++
            (pre2 ++ [Event.pollRxDone v2]),
          (env.Seq_Receive_IT w1.clock rlen XferOptions.I2C_LAST_FRAME w1.hi2c).1,
          by rw [gb]; simp, by simp⟩
      · exact ⟨(pre ++ [pollEvent Dir.tx v] ++ [Event.seqReceiveIT XferOptions.I2C_LAST_FRAME
          (env.Seq_Receive_IT w1.clock rlen XferOptions.I2C_LAST_FRAME w1.hi2c).1]) ++
            (pre2 ++ [Event.pollRxDone 0, Event.getTick t]),
          (env.Seq_Receive_IT w1.clock rlen XferOptions.I2C_LAST_FRAME w1.hi2c).1,
          by rw [gb]; simp, by simp⟩
  · cases ha

/-! ## A tick source that advances step by step -/

theorem tick_mono (f : Nat → Nat) (hmono : ∀ k, f k ≤ f (k + 1)) (a b : Nat) (hab : a ≤ b) :
    f a ≤ f b := by
  induction b with
  | zero =>
    have : a = 0 := by omega
    rw [this]
  | succ n ih =>
    rcases Nat.lt_or_ge a (n + 1) with h | h
    · exact le_trans (ih (by omega)) (hmono n)
    · have : a = n + 1 := by omega
      rw [this]

theorem tick_dense (f : Nat → Nat) (hdense : ∀ k, f (k + 1) ≤ f k + 1) (a n : Nat) :
    f (a + n) ≤ f a + n := by
  induction n with
  | zero => simp
  | succ n ih =>
    have := hdense (a + n)
    rw [← Nat.add_assoc]
    omega

theorem tick_first_crossing (f : Nat → Nat) (hmono : ∀ k, f k ≤ f (k + 1))
    (hdense : ∀ k, f (k + 1) ≤ f k + 1) (a T : Nat) (ha : f a ≤ T) (k0 : Nat)
    (hadv : T < f k0) :
    ∃ K, a < K ∧ K ≤ k0 ∧ f K = T + 1 := by
  classical
  have hex : ∃ k, T < f k := ⟨k0, hadv⟩
  have hspec := Nat.find_spec hex
  have hmin := fun j => Nat.find_min hex (m := j)
  have hle := Nat.find_min' hex hadv
  generalize Nat.find hex = K at hspec hmin hle
  have hK : a < K := by
    by_contra hcon
    have := tick_mono f hmono K a (by omega)
    omega
  refine ⟨K, hK, hle, ?_⟩
  obtain ⟨j, rfl⟩ : ∃ j, K = j + 1 := ⟨K - 1, by omega⟩
  have h1 := hmin j (by omega)
  have h2 := hdense j
  omega

/-- C3: the receive wait of `platform_write_read` is measured against the start
tick of the transmit wait.  Take any start tick, a tick source that advances at
most one tick per step of the adapter and passes 1000 ticks after the start by
step `k0`, a
transmit-complete notification serviced 900 ticks after the start, a read
initiation that returns HAL_OK, and no receive-complete notification before
1050 ticks after the start.  Then the call never returns 0, and with fuel `k0`
or more it returns HAL_TIMEOUT from the receive wait: the transmit flag was seen
set, the read phase was issued, and a tick read of the receive loop was past
the deadline counted from the one start tick. -/
theorem C3_shared_deadline (env : Env) (wbuf : List Nat) (wlen rlen : Int) (w : World)
    (hinit : (platform_write_read_init env wbuf wlen w).1 = HAL_StatusTypeDef.HAL_OK)
    (hrecv : ∀ k h, (env.Seq_Receive_IT k rlen XferOptions.I2C_LAST_FRAME h).1 =
      HAL_StatusTypeDef.HAL_OK)
    (hmono : ∀ k, env.uwTick k ≤ env.uwTick (k + 1))
    (hdense : ∀ k, env.uwTick (k + 1) ≤ env.uwTick k + 1)
    (k0 : Nat) (hadv : env.uwTick (w.clock + 2) + 1000 < env.uwTick k0)
    (htx : ∃ q, w.clock + 3 < q ∧ Irq.MasterTxCplt ∈ env.irq q ∧
      env.uwTick q = env.uwTick (w.clock + 2) + 900)
    (hrx : ∀ k, w.clock + 1 < k → env.uwTick k < env.uwTick (w.clock + 2) + 1050 →
      Irq.MasterRxCplt ∉ env.irq k) :
    (∀ fuel, (platform_write_read env wbuf wlen rlen fuel w).1 ≠ some 0) ∧
    ∀ fuel, k0 ≤ fuel →
      (platform_write_read env wbuf wlen rlen fuel w).1 =
        some HAL_StatusTypeDef.HAL_TIMEOUT.toInt ∧
      ∃ pre v pre2 t, v ≠ 0 ∧
        deadline_expired t (platform_write_read_startTick env w) = true ∧
        (platform_write_read env wbuf wlen rlen fuel w).2.trace =
          w.trace ++ platform_write_read_head env wbuf wlen w ++ pre ++
            [Event.pollTxDone v, Event.seqReceiveIT XferOptions.I2C_LAST_FRAME
              HAL_StatusTypeDef.HAL_OK] ++ pre2 ++ [Event.pollRxDone 0, Event.getTick t] := by
  obtain ⟨K, hK, hKle, hKv⟩ := tick_first_crossing env.uwTick hmono hdense (w.clock + 2)
    (env.uwTick (w.clock + 2) + 1000) (by omega) k0 hadv
  have hKfar : w.clock + 1003 ≤ K := by
    have h := tick_dense env.uwTick hdense (w.clock + 2) (K - (w.clock + 2))
    rw [show w.clock + 2 + (K - (w.clock + 2)) = K by omega] at h
    omega
  have hwin : ∀ k, K ≤ k → k ≤ K + 3 → deadline_expired (env.uwTick k % 4294967296)
      (platform_write_read_startTick env w) = true := by
    intro k h1 h2
    have hlo := tick_mono env.uwTick hmono K k h1
    have hhi := tick_dense env.uwTick hdense K (k - K)
    rw [show K + (k - K) = k by omega] at hhi
    obtain ⟨d, hd⟩ : ∃ d, env.uwTick k = env.uwTick (w.clock + 2) + d :=
      ⟨env.uwTick k - env.uwTick (w.clock + 2), by omega⟩
    rw [hd]
    unfold platform_write_read_startTick
    exact (deadline_expired_iff _ d (by omega)).2 (by omega)
  have hnorx : ∀ k, w.clock + 1 < k → k ≤ K + 3 → Irq.MasterRxCplt ∉ env.irq k := by
    intro k h1 h2
    apply hrx k h1
    have h3 := tick_mono env.uwTick hmono k (K + 3) h2
    have h4 := tick_dense env.uwTick hdense K 3
    omega
  have honly : ∀ fuel, (platform_write_read env wbuf wlen rlen fuel w).1 = none ∨
      (platform_write_read env wbuf wlen rlen fuel w).1 = some 3 := by
    intro fuel
    rw [platform_write_read_unfold env wbuf wlen rlen fuel w hinit]
    apply platform_write_read_tx_wait_timeout_only env rlen _ K hwin hrecv
    · rw [platform_write_read_entry_clock]
      omega
    · exact platform_write_read_entry_rx_zero env wbuf wlen w (hnorx _ (by omega) (by omega))
        (hnorx _ (by omega) (by omega))
    · intro k hk hk2
      rw [platform_write_read_entry_clock] at hk
      exact hnorx k (by omega) hk2
  refine ⟨?_, ?_⟩
  · intro fuel h0
    rcases honly fuel with h | h
    · rw [h] at h0
      cases h0
    · rw [h] at h0
      cases h0
  · intro fuel hf0
    have hf : K ≤ fuel := le_trans hKle hf0
    have hne := platform_write_read_returns env wbuf wlen rlen w K (by omega) hwin fuel hf
    have h3 : (platform_write_read env wbuf wlen rlen fuel w).1 = some 3 := by
      rcases honly fuel with h | h
      · exact absurd h hne
      · exact h
    refine ⟨h3, ?_⟩
    obtain ⟨q, hq1, hq2, hq3⟩ := htx
    have hqK : q < K := by
      by_contra hle
      have := tick_mono env.uwTick hmono K q (by omega)
      omega
    have hnot : ∀ k, w.clock + 4 ≤ k → k ≤ q → deadline_expired (env.uwTick k % 4294967296)
        (platform_write_read_startTick env w) = false := by
      intro k h1 h2
      have hlo := tick_mono env.uwTick hmono (w.clock + 2) k (by omega)
      have hhi := tick_mono env.uwTick hmono k q h2
      obtain ⟨d, hd⟩ : ∃ d, env.uwTick k = env.uwTick (w.clock + 2) + d :=
        ⟨env.uwTick k - env.uwTick (w.clock + 2), by omega⟩
      rw [hd]
      unfold platform_write_read_startTick
      rw [← Bool.not_eq_true, deadline_expired_iff _ d (by omega)]
      omega
    have hcomp := pollLoop_completes env Dir.tx (platform_write_read_startTick env w)
      (w.clock + 4) q hq2 hnot fuel (platform_write_read_entry env wbuf wlen w)
      (by rw [platform_write_read_entry_clock])
      (Or.inl ⟨by rw [platform_write_read_entry_clock]; omega,
        by rw [platform_write_read_entry_clock]; omega⟩)
    obtain ⟨l, st, hl, hmem⟩ := platform_write_read_of_completed env wbuf wlen rlen fuel w
      hinit hcomp
    obtain ⟨_, pre, hpre, hcases⟩ := platform_write_read_spec env wbuf wlen rlen fuel w
    rcases hcases with ⟨ha, _⟩ | ⟨_, hb, _⟩ | ⟨_, _, ⟨t, _, hc⟩, _⟩ |
      ⟨_, v, k, pre2, hv, _, _, _, hsub⟩
    · exact absurd hinit ha
    · rw [hb] at h3
      cases h3
    · exfalso
      rw [hl, List.append_assoc, List.append_assoc, List.append_assoc, List.append_right_inj,
        List.append_right_inj] at hc
      subst hc
      have := idle_no_receive Dir.tx _ pre hpre XferOptions.I2C_LAST_FRAME st
      simp [this] at hmem
    · rcases hsub with ⟨ha, _⟩ | ⟨_, hb, _⟩ | ⟨_, hb, _⟩ | ⟨_, _, ⟨t, ht, hc⟩⟩
      · exact absurd (hrecv k _) ha
      · rw [hb] at h3
        cases h3
      · rw [hb] at h3
        cases h3
      · exact ⟨pre, v, pre2, t, hv, ht, hc⟩

/-- C3 with the tick counter wrapping during the call: the transmit completes
900 ticks after the start and the receive 1050 ticks after it, and the call
times out. -/
theorem C3_shared_deadline_witness :
    (platform_write_read_init (sharedDeadlineEnv 4294966500) [7] 1 bootWorld).1 =
      HAL_StatusTypeDef.HAL_OK ∧
    Irq.MasterTxCplt ∈ (sharedDeadlineEnv 4294966500).irq 902 ∧
    (sharedDeadlineEnv 4294966500).uwTick 902 =
      (sharedDeadlineEnv 4294966500).uwTick (bootWorld.clock + 2) + 900 ∧
    Irq.MasterRxCplt ∈ (sharedDeadlineEnv 4294966500).irq 1052 ∧
    (sharedDeadlineEnv 4294966500).uwTick 1052 =
      (sharedDeadlineEnv 4294966500).uwTick (bootWorld.clock + 2) + 1050 ∧
    (platform_write_read (sharedDeadlineEnv 4294966500) [7] 1 8 1003 bootWorld).1 = some 3 :=
  ⟨rfl, by decide, by decide, by decide, by decide,
    ((C3_shared_deadline (sharedDeadlineEnv 4294966500) [7] 1 8 bootWorld rfl (fun _ _ => rfl)
      (fun k => Nat.add_le_add_left (Nat.le_succ k) 4294966500)
      (fun k => Nat.le_refl (4294966500 + (k + 1)))
      1003 (by decide)
      ⟨902, by decide, by decide, by decide⟩
      (by
        intro k h1 h2
        have hk : k < 1052 := by
          simp only [sharedDeadlineEnv, bootWorld] at h2
          omega
        simp only [sharedDeadlineEnv]
        split_ifs <;> simp_all)).2 1003 (le_refl 1003)).1⟩

/-- C4 on a busy bus: the refusal is what `platform_write` returns. -/
theorem C4_initiation_failure_propagated_witness :
    HAL_StatusTypeDef.HAL_BUSY ≠ HAL_StatusTypeDef.HAL_OK ∧
    (platform_write busyEnv [7] 1 0 bootWorld).1 = some 2 :=
  ⟨by decide, ((C4_initiation_failure_propagated busyEnv [7] 1 8 bootWorld
    HAL_StatusTypeDef.HAL_BUSY (by decide) 0).2.1 rfl).1⟩
